import Mathlib

/-! # Verification development for the InfiniBand Kubernetes device plugin

The Go program `main.go` is embedded shallowly:

* a Go `string` is a Lean `String`; a Go slice is a `List`; a Go pointer
  that may be `nil` is an `Option`;
* a Go function that can end in a run-time panic or in `log.Fatalf`
  (which exits the process) returns `Exec α := Except Abort α`;
* a Go `error` value is its message (`GoError := String`), `nil` is `none`;
* the operating system and the gRPC peers are explicit parameters that
  say how each external call answers; a stateful function returns the
  sequence of external calls it made together with its result;
* `int` and `uintptr` are 64 bits wide; the limits of the Go runtime that
  `make` meets when the unit list is built are a parameter `GoRuntime`.

Log output is not part of any property below and is left out, except in
`Start`, where the log lines are recorded as events.
-/

namespace K8sIb

/-! ## Go run-time outcomes -/

/-- Abnormal end of a Go computation: a run-time panic; `log.Fatalf`,
which prints the message and exits the process with status 1; or a fatal
error of the runtime (`runtime.throw`), which ends the process and cannot
be recovered. -/
inductive Abort where
  | panic (msg : String)
  | fatal (msg : String)
  | throw (msg : String)
  deriving DecidableEq, Repr

/-- Result of running Go code that may panic or exit. -/
abbrev Exec (α : Type) := Except Abort α

deriving instance DecidableEq for Except

/-- Go `error` values are represented by their message. -/
abbrev GoError := String

/-- Message of the panic raised by a nil pointer dereference. -/
def nilDeref : Abort :=
  .panic "runtime error: invalid memory address or nil pointer dereference"

/-! ## Protocol messages (`k8s.io/kubelet/pkg/apis/deviceplugin/v1beta1`) -/

/-- Constant `v1beta1.Healthy`. -/
def Healthy : String := "Healthy"

/-- Constant `v1beta1.Unhealthy`. -/
def Unhealthy : String := "Unhealthy"

/-- Message `v1beta1.Device` (the fields the program sets). -/
structure Device where
  ID : String
  Health : String
  deriving DecidableEq, Repr

/-- Message `v1beta1.DeviceSpec`. -/
structure DeviceSpec where
  ContainerPath : String
  HostPath : String
  Permissions : String
  deriving DecidableEq, Repr

/-- Message `v1beta1.ContainerAllocateRequest`. -/
structure ContainerAllocateRequest where
  DevicesIDs : List String
  deriving DecidableEq, Repr

/-- Message `v1beta1.AllocateRequest`: a slice of pointers. -/
structure AllocateRequest where
  ContainerRequests : List (Option ContainerAllocateRequest)
  deriving DecidableEq, Repr

/-- Message `v1beta1.ContainerAllocateResponse`; the program only ever
touches `Devices`, the other fields keep their zero value. -/
structure ContainerAllocateResponse where
  Devices : List (Option DeviceSpec)
  deriving DecidableEq, Repr

/-- Message `v1beta1.AllocateResponse`: a slice of pointers. -/
structure AllocateResponse where
  ContainerResponses : List (Option ContainerAllocateResponse)
  deriving DecidableEq, Repr

/-- Handle `*grpc.Server`: the services registered on it. -/
structure GrpcServer where
  services : List String
  deriving DecidableEq, Repr

/-- The `IbDevicePlugin` struct of `main.go`. -/
structure IbDevicePlugin where
  devs : List (Option Device)
  devices : List String
  server : Option GrpcServer
  deriving DecidableEq, Repr

/-! ## `Allocate` -/

/-- Inner loop of `Allocate`: `for i, device := range p.devices`, writing
`devices[i]`. The first argument is the loop index `i`, the second the
part of `p.devices` still to visit. -/
def allocateDevicesLoop : Nat → List String → List (Option DeviceSpec) →
    List (Option DeviceSpec)
  | _, [], devices => devices
  | i, device :: rest, devices =>
    allocateDevicesLoop (i + 1) rest
      (devices.set i
        (some { HostPath := device, ContainerPath := device, Permissions := "rw" }))

/-- Outer loop of `Allocate`: `for i, containerReq := range
reqs.ContainerRequests`. Reading `containerReq.DevicesIDs` through a nil
pointer panics. -/
def allocateLoop (p : IbDevicePlugin) : Nat → List (Option ContainerAllocateRequest) →
    List (Option ContainerAllocateResponse) → Exec (List (Option ContainerAllocateResponse))
  | _, [], responses => .ok responses
  | i, containerReq :: rest, responses =>
    let responses := responses.set i (some { Devices := [] })
    match containerReq with
    | none => .error nilDeref
    | some req =>
      if req.DevicesIDs.length = 0 then
        allocateLoop p (i + 1) rest responses
      else
        let devices :=
          allocateDevicesLoop 0 p.devices (List.replicate p.devices.length none)
        allocateLoop p (i + 1) rest (responses.set i (some { Devices := devices }))

/-- Method `(*IbDevicePlugin).Allocate`: the pair `(response, error)` it
returns. The context argument is unused by the code; the request pointer
`reqs` itself is never nil, as the gRPC layer passes a decoded message. -/
def Allocate (p : IbDevicePlugin) (reqs : AllocateRequest) :
    Exec (AllocateResponse × Option GoError) :=
  match allocateLoop p 0 reqs.ContainerRequests
      (List.replicate reqs.ContainerRequests.length none) with
  | .error e => .error e
  | .ok responses => .ok ({ ContainerResponses := responses }, none)

/-! ### What `Allocate` computes, in closed form (used to state lemmas) -/

/-- The device spec written for one inventory path. -/
def specOf (device : String) : Option DeviceSpec :=
  some { HostPath := device, ContainerPath := device, Permissions := "rw" }

/-- The response written for one container request. -/
def responseOf (devices : List String) (req : ContainerAllocateRequest) :
    Option ContainerAllocateResponse :=
  if req.DevicesIDs.length = 0 then some { Devices := [] }
  else some { Devices := devices.map specOf }


/-! ## Go standard library: `fmt.Sprintf("%d", _)`, `path.Clean`, `path.Join`, `path.Base`

A Go string is a byte sequence; the three `path` functions look only at the
bytes `/` and `.`, which never occur inside a multi-byte UTF-8 encoding, so
running them character by character gives the same result. -/

/-- The byte `'0' + d` of a decimal digit. -/
def digitByte (d : Nat) : Char := Char.ofNat (48 + d)

/-- The base-10 loop of `fmt.(*fmt).fmtInteger`:
`for u >= 10 { i--; next := u / 10; buf[i] = byte('0' + u - next*10); u = next }`
followed by `i--; buf[i] = digits[u]`. The buffer is filled from its end,
so a new byte goes in front. The first argument bounds the number of
iterations. -/
def fmtIntegerLoop : Nat → Nat → List Char → List Char
  | 0, u, buf => digitByte u :: buf
  | fuel + 1, u, buf =>
    if u ≥ 10 then
      fmtIntegerLoop fuel (u / 10) (digitByte (u - (u / 10) * 10) :: buf)
    else
      digitByte u :: buf

/-- The text `fmt.Sprintf("%d", v)` of a Go `int`. -/
def fmtInteger (v : Int) : String :=
  let u := v.natAbs
  let digits := fmtIntegerLoop u u []
  String.mk (if v < 0 then '-' :: digits else digits)

/-- The decimal digits of `u`, most significant first (closed form of
`fmtIntegerLoop`, used in proofs). -/
def decDigits (u : Nat) : List Char :=
  if _h : u ≥ 10 then decDigits (u / 10) ++ [digitByte (u % 10)] else [digitByte u]
termination_by u
decreasing_by omega

/-- The write buffer `lazybuf` of package `path`: its bytes and the write
index `w`; bytes at and after `w` are stale. -/
structure Lazybuf where
  buf : List Char
  w : Nat
  deriving DecidableEq, Repr

/-- Method `lazybuf.index`. -/
def Lazybuf.index (b : Lazybuf) (i : Nat) : Char := b.buf.getD i (Char.ofNat 0)

/-- Method `lazybuf.append`: write `c` at `w`, then `w++`. -/
def Lazybuf.append (b : Lazybuf) (c : Char) : Lazybuf :=
  { buf := b.buf.take b.w ++ c :: b.buf.drop (b.w + 1), w := b.w + 1 }

/-- Method `lazybuf.string`: the bytes before `w`. -/
def Lazybuf.string (b : Lazybuf) : List Char := b.buf.take b.w

/-- Copy loop of `path.Clean`:
`for ; r < n && path[r] != '/'; r++ { out.append(path[r]) }`.
Returns the unread rest of the path and the buffer. -/
def cleanCopy : List Char → Lazybuf → List Char × Lazybuf
  | [], out => ([], out)
  | c :: rest, out =>
    if c = '/' then (c :: rest, out) else cleanCopy rest (out.append c)

/-- Backtrack loop of `path.Clean`:
`for out.w > dotdot && out.index(out.w) != '/' { out.w-- }`. -/
def cleanBacktrack (dotdot : Nat) : Nat → Lazybuf → Lazybuf
  | 0, out => out
  | fuel + 1, out =>
    if out.w > dotdot ∧ out.index out.w ≠ '/' then
      cleanBacktrack dotdot fuel { out with w := out.w - 1 }
    else out

/-- Main loop `for r < n { switch ... }` of `path.Clean`. The list is the
unread part `path[r:]`; the first `Nat` bounds the number of iterations
(each one reads at least one byte). -/
def cleanLoop (rooted : Bool) : Nat → List Char → Nat → Lazybuf → Lazybuf
  | 0, _, _, out => out
  | _ + 1, [], _, out => out
  | fuel + 1, c :: rest, dotdot, out =>
    if c = '/' then
      -- empty path element
      cleanLoop rooted fuel rest dotdot out
    else if c = '.' ∧ (rest = [] ∨ rest.head? = some '/') then
      -- . element
      cleanLoop rooted fuel rest dotdot out
    else if c = '.' ∧ rest.head? = some '.' ∧
        (rest.tail = [] ∨ rest.tail.head? = some '/') then
      -- .. element: remove to last /
      if out.w > dotdot then
        let out := { out with w := out.w - 1 }
        cleanLoop rooted fuel rest.tail dotdot (cleanBacktrack dotdot out.w out)
      else if ¬ rooted then
        let out := if out.w > 0 then out.append '/' else out
        let out := (out.append '.').append '.'
        cleanLoop rooted fuel rest.tail out.w out
      else
        cleanLoop rooted fuel rest.tail dotdot out
    else
      -- real path element: add slash if needed, copy element
      let out :=
        if (rooted ∧ out.w ≠ 1) ∨ (¬ rooted ∧ out.w ≠ 0) then out.append '/' else out
      let (rest, out) := cleanCopy (c :: rest) out
      cleanLoop rooted fuel rest dotdot out

/-- Go `path.Clean`. -/
def Clean (path : String) : String :=
  if path = "" then "."
  else
    let s := path.data
    let rooted : Bool := s.head? = some '/'
    let out : Lazybuf := { buf := [], w := 0 }
    let out := if rooted then out.append '/' else out
    let rest := if rooted then s.tail else s
    let dotdot := if rooted then 1 else 0
    let out := cleanLoop rooted s.length rest dotdot out
    if out.w = 0 then "." else String.mk out.string

/-- The loop of `path.Join` that builds `buf`: empty elements before the
first non-empty one are skipped, later elements are joined with `/`. -/
def joinLoop : List String → List Char → List Char
  | [], buf => buf
  | e :: rest, buf =>
    if buf.length > 0 ∨ e ≠ "" then
      let buf := if buf.length > 0 then buf ++ ['/'] else buf
      joinLoop rest (buf ++ e.data)
    else joinLoop rest buf

/-- Go `path.Join`. -/
def Join (elem : List String) : String :=
  let size := (elem.map String.length).sum
  if size = 0 then "" else Clean (String.mk (joinLoop elem []))

/-- First loop of `path.Base`, on the reversed path: strip trailing slashes. -/
def stripSlashes : List Char → List Char
  | [] => []
  | c :: rest => if c = '/' then stripSlashes rest else c :: rest

/-- Go `path.Base`. -/
def Base (path : String) : String :=
  if path = "" then "."
  else
    -- Strip trailing slashes.
    let rev := stripSlashes path.data.reverse
    -- Find the last element: what follows the last slash.
    let last := (rev.takeWhile (fun c => c ≠ '/')).reverse
    -- If empty now, it had only slashes.
    if last = [] then "/" else String.mk last

/-! ## Constants of `main.go` and of the device-plugin API -/

/-- Constant `serverSock`. -/
def serverSock : String := "/var/lib/kubelet/device-plugins/ib-device-plugin.sock"

/-- Constant `ibDevicePath`. -/
def ibDevicePath : String := "/dev/infiniband"

/-- Constant `defaultResourceName`. -/
def defaultResourceName : String := "ib.plugin/infiniband"

/-- Constant `defaultResourceAmount`. -/
def defaultResourceAmount : Int := 1

/-- Constant `v1beta1.Version`. -/
def Version : String := "v1beta1"

/-- Constant `v1beta1.KubeletSocket`. -/
def KubeletSocket : String := "/var/lib/kubelet/device-plugins/kubelet.sock"

/-! ## `NewIbDevicePlugin` -/

/-- An `error` returned by package `os`, with what `os.IsNotExist` says of it. -/
structure OsError where
  msg : String
  isNotExist : Bool
  deriving DecidableEq, Repr

/-- Go `os.IsNotExist`. -/
def IsNotExist (err : OsError) : Bool := err.isNotExist

/-- The `fs.FileInfo` of a successful `os.Stat`: what `IsDir()` answers. -/
structure FileInfo where
  isDir : Bool
  deriving DecidableEq, Repr

/-- An `fs.DirEntry` of `os.ReadDir`: what `Name()` answers. -/
structure DirEntry where
  name : String
  deriving DecidableEq, Repr

/-- What the operating system answers about `ibDevicePath` when the plugin
is built: the result of `os.Stat` and, should it be asked, of `os.ReadDir`
(the entries read, and the error if there was one). -/
structure DeviceDir where
  stat : Except OsError FileInfo
  readDir : List DirEntry × Option GoError

/-- A name a directory entry can have: not empty, without `/`, and neither
`.` nor `..` (which `os.ReadDir` never lists). -/
def validName (name : String) : Prop :=
  name.data ≠ [] ∧ '/' ∉ name.data ∧ name ≠ "." ∧ name ≠ ".."

instance (name : String) : Decidable (validName name) := by
  unfold validName; infer_instance

/-- The loop `for i := 0; i < resourceAmount; i++ { devs[i] = ... }`. The
first argument is the number of iterations left, the second is `i`. -/
def newDevsLoop : Nat → Nat → List (Option Device) → List (Option Device)
  | 0, _, devs => devs
  | left + 1, i, devs =>
    newDevsLoop left (i + 1)
      (devs.set i
        (some { ID := "ib-plugin/infiniband-" ++ fmtInteger (i : Int), Health := Healthy }))

/-- The loop `for _, file := range files { devices = append(devices, ...) }`. -/
def scanLoop : List DirEntry → List String → List String
  | [], devices => devices
  | file :: rest, devices =>
    scanLoop rest (devices ++ [Join [ibDevicePath, file.name]])

/-- Size in bytes of an element of `[]*v1beta1.Device`, a pointer
(`goarch.PtrSize` on a 64-bit platform). -/
def ptrSize : Nat := 8

/-- The limits of the Go runtime on the machine that runs the plugin:
`maxAlloc` is the largest size in bytes the allocator accepts
(`runtime.maxAlloc`, which is `2 ^ 48` on linux/amd64); `outOfMemory n`
says whether the machine runs out of memory while a unit list of length
`n` is allocated and filled, in which case the runtime ends the process
with `fatal error: runtime: out of memory`. -/
structure GoRuntime where
  maxAlloc : Nat
  outOfMemory : Nat → Bool

/-- The length check of `runtime.makeslice` for
`make([]*v1beta1.Device, len)`:
`mem, overflow := math.MulUintptr(et.Size_, uintptr(len))` and then
`overflow || mem > maxAlloc || len < 0`, on which `make` panics. For a
negative `len` the last test alone decides. -/
def makesliceLenOutOfRange (rt : GoRuntime) (len : Int) : Bool :=
  let mem := ptrSize * len.toNat
  let overflow := decide (mem ≥ 2 ^ 64)
  overflow || decide (mem > rt.maxAlloc) || decide (len < 0)

/-- The first part of `NewIbDevicePlugin`: `devs := make([]*v1beta1.Device,
resourceAmount)` and the loop that fills it. `make` panics on a length
that is negative or too large; the runtime ends the process when the
machine has no memory for the list. -/
def newDevs (rt : GoRuntime) (resourceAmount : Int) : Exec (List (Option Device)) :=
  if makesliceLenOutOfRange rt resourceAmount then
    .error (.panic "runtime error: makeslice: len out of range")
  else if rt.outOfMemory resourceAmount.toNat then
    .error (.throw "runtime: out of memory")
  else
    .ok (newDevsLoop resourceAmount.toNat 0 (List.replicate resourceAmount.toNat none))

/-- Function `NewIbDevicePlugin`; `log.Fatalf` ends the process. -/
def NewIbDevicePlugin (rt : GoRuntime) (resourceAmount : Int) (os : DeviceDir) :
    Exec IbDevicePlugin :=
  match newDevs rt resourceAmount with
  | .error e => .error e
  | .ok devs =>
    let devices : List String := []
    match os.stat with
    | .error err =>
      if IsNotExist err then
        .ok { devs := devs, devices := devices, server := none }
      else
        .error (.fatal ("Failed to stat InfiniBand device path: " ++ err.msg))
    | .ok stat =>
      if stat.isDir then
        match os.readDir with
        | (_, some err) =>
          .error (.fatal ("Failed to read InfiniBand device path: " ++ err))
        | (files, none) =>
          .ok { devs := devs, devices := scanLoop files devices, server := none }
      else
        .ok { devs := devs, devices := devices, server := none }

/-! ## `Start` and `Stop` -/

/-- Message `v1beta1.RegisterRequest` (the fields the program sets). -/
structure RegisterRequest where
  Version : String
  Endpoint : String
  ResourceName : String
  deriving DecidableEq, Repr

/-- What the outside world answers to each external call `Start` can make;
an answer is only looked at if the call is reached. `none` is a `nil`
error. -/
structure StartEnv where
  statSock : Except OsError FileInfo
  removeSock : Option GoError
  listen : Option GoError
  dialSelf : Option GoError
  dialKubelet : Option GoError
  register : Option GoError

/-- One external call (or log line) of `Start` or `Stop`, with its answer.
`dial` stands for a call of the helper `dial` of `main.go`, a blocking
`grpc.Dial` with a timeout; `serve` for `go p.server.Serve(lis)`. -/
inductive Event where
  | stat (path : String) (res : Except OsError FileInfo)
  | remove (path : String) (err : Option GoError)
  | log (msg : String)
  | listen (network : String) (address : String) (err : Option GoError)
  | newServer
  | registerService
  | serve
  | dial (address : String) (timeoutSeconds : Nat) (err : Option GoError)
  | connClose (address : String)
  | register (req : RegisterRequest) (err : Option GoError)
  | serverStop
  deriving DecidableEq, Repr

/-- Outcome of `Start` and `Stop`: the calls made, in order, the plugin
afterwards, and the returned `error`. -/
structure Run where
  trace : List Event
  plugin : IbDevicePlugin
  err : Option GoError
  deriving DecidableEq, Repr

/-- Method `Start` from the line `log.Println("Starting Infiniband device
plugin")` on; `pre` holds the calls made before it. -/
def startFromListen (p : IbDevicePlugin) (resourceName : String) (env : StartEnv)
    (pre : List Event) : Run :=
  let t := pre ++ [.log "Starting Infiniband device plugin",
    .listen "unix" serverSock env.listen]
  match env.listen with
  | some err => { trace := t, plugin := p, err := some err }
  | none =>
    let p := { p with server := some { services := ["v1beta1.DevicePlugin"] } }
    let t := t ++ [.newServer, .registerService, .serve,
      -- Wait for server to start by launching a blocking connection
      .dial serverSock 5 env.dialSelf]
    match env.dialSelf with
    | some err => { trace := t, plugin := p, err := some err }
    | none =>
      let t := t ++ [.connClose serverSock,
        .log "Infiniband device plugin started",
        .log "Registering Infinitband device plugin with Kubelet",
        .dial KubeletSocket 5 env.dialKubelet]
      match env.dialKubelet with
      | some err => { trace := t, plugin := p, err := some err }
      | none =>
        let req : RegisterRequest :=
          { Version := Version, Endpoint := Base serverSock, ResourceName := resourceName }
        let t := t ++ [.register req env.register,
          .log "Infiniband device plugin registered"]
        -- the deferred `conn.Close()` runs as the function returns
        match env.register with
        | some err => { trace := t ++ [.connClose KubeletSocket], plugin := p, err := some err }
        | none => { trace := t ++ [.connClose KubeletSocket], plugin := p, err := none }

/-- Method `(*IbDevicePlugin).Start`. -/
def Start (p : IbDevicePlugin) (resourceName : String) (env : StartEnv) : Run :=
  match env.statSock with
  | .ok _ =>
    match env.removeSock with
    | some err =>
      { trace := [.stat serverSock env.statSock, .remove serverSock (some err)],
        plugin := p,
        err := some ("failed to remove pre-existing socket file: " ++ err) }
    | none =>
      startFromListen p resourceName env
        [.stat serverSock env.statSock, .remove serverSock none]
  | .error err =>
    if ¬ IsNotExist err then
      { trace := [.stat serverSock env.statSock],
        plugin := p,
        err := some ("failed to stat socket file: " ++ err.msg) }
    else
      startFromListen p resourceName env [.stat serverSock env.statSock]

/-- Method `(*grpc.Server).Stop`; reaching it through a nil pointer panics. -/
def GrpcServer.Stop : Option GrpcServer → Exec Event
  | none => .error nilDeref
  | some _ => .ok .serverStop

/-- Method `(*IbDevicePlugin).Stop`; `removeSock` is what `os.Remove`
answers. -/
def Stop (p : IbDevicePlugin) (removeSock : Option GoError) : Exec Run :=
  if p.server ≠ none then
    match GrpcServer.Stop p.server with
    | .error e => .error e
    | .ok stopped =>
      .ok { trace := [stopped, .remove serverSock removeSock], plugin := p,
            err := removeSock }
  else
    .ok { trace := [.remove serverSock removeSock], plugin := p, err := removeSock }

/-- Whether the stale-socket guard at the head of `Start` lets it go on to
the bind: the stat answers not-exist, or it finds a file and the removal
succeeds. -/
def guardPasses (env : StartEnv) : Bool :=
  match env.statSock with
  | .ok _ => env.removeSock.isNone
  | .error err => IsNotExist err

/-- The calls the stale-socket guard of `Start` makes: the stat, and the
removal when the stat found a file. -/
def guardEvents (env : StartEnv) : List Event :=
  match env.statSock with
  | .ok _ => [.stat serverSock env.statSock, .remove serverSock env.removeSock]
  | .error _ => [.stat serverSock env.statSock]

/-- The six startup steps of `Start` among the events. -/
def Event.isStep : Event → Bool
  | .stat _ _ => true
  | .remove _ _ => true
  | .listen _ _ _ => true
  | .dial _ _ _ => true
  | .register _ _ => true
  | _ => false

/-- A startup step that failed: a stat error other than not-exist, or any
error from remove, listen, dial or register. -/
def Event.failed : Event → Bool
  | .stat _ (.error err) => ! IsNotExist err
  | .remove _ (some _) => true
  | .listen _ _ (some _) => true
  | .dial _ _ (some _) => true
  | .register _ (some _) => true
  | _ => false

/-- A registration call. -/
def Event.isRegister : Event → Bool
  | .register _ _ => true
  | _ => false

/-- The three events that make the server reachable, in the order the code
produces them: the listener is bound, `go p.server.Serve(lis)` is
launched, the blocking dial to the plugin's own socket succeeds. -/
def readySteps : List Event :=
  [.listen "unix" serverSock none, .serve, .dial serverSock 5 none]

/-- The events of a trace before its first registration call. -/
def beforeRegister (trace : List Event) : List Event :=
  trace.takeWhile (fun e => ! e.isRegister)

/-- The events of a trace after its first failed startup step. -/
def afterFailure (trace : List Event) : List Event :=
  (trace.dropWhile (fun e => ! e.failed)).drop 1

/-! ## `ListAndWatch` -/

/-- Message `v1beta1.ListAndWatchResponse`. -/
structure ListAndWatchResponse where
  Devices : List (Option Device)
  deriving DecidableEq, Repr

/-- State of one `ListAndWatch` invocation: the plugin's unit list, every
`s.Send` call made so far (the message as it was at the call, and the
error the call returned), the number of `time.Sleep(10 * time.Second)`
calls, and whether the method has returned (and with what error). -/
structure WatchState where
  devs : List (Option Device)
  sends : List (ListAndWatchResponse × Option GoError)
  sleeps : Nat
  returned : Option (Option GoError)
  deriving DecidableEq, Repr

/-- The loop `for _, dev := range p.devs { dev.Health = v1beta1.Healthy }`;
writing through a nil pointer panics. -/
def markHealthy : List (Option Device) → Exec (List (Option Device))
  | [] => .ok []
  | none :: _ => .error nilDeref
  | some dev :: rest =>
    match markHealthy rest with
    | .error e => .error e
    | .ok rest => .ok (some { dev with Health := Healthy } :: rest)

/-- One pass through the body of the `for { ... }` of `ListAndWatch`;
`sendErr` is what this pass's `s.Send` returns. The code drops that
return value. -/
def watchIteration (sendErr : Option GoError) (st : WatchState) : Exec WatchState :=
  match markHealthy st.devs with
  | .error e => .error e
  | .ok devs =>
    .ok { st with
      devs := devs,
      sleeps := st.sleeps + 1,
      sends := st.sends ++ [({ Devices := devs }, sendErr)] }

/-- The first `iterations` passes of the `for { ... }` of `ListAndWatch`;
`send k` is what the `k`-th `s.Send` call of the invocation returns. -/
def watchLoop (send : Nat → Option GoError) : Nat → WatchState → Exec WatchState
  | 0, st => .ok st
  | iterations + 1, st =>
    match watchLoop send iterations st with
    | .error e => .error e
    | .ok st => watchIteration (send st.sends.length) st

/-- Method `(*IbDevicePlugin).ListAndWatch`, run up to the end of the
given number of passes through its loop. The loop has no exit, so the
state reached never has `returned` set. -/
def ListAndWatch (p : IbDevicePlugin) (send : Nat → Option GoError) (iterations : Nat) :
    Exec WatchState :=
  watchLoop send iterations
    { devs := p.devs,
      sends := [({ Devices := p.devs }, send 0)],
      sleeps := 0,
      returned := none }

/-- The unit IDs of a unit list, in order (`none` for a nil pointer). -/
def unitIDs (devs : List (Option Device)) : List (Option String) :=
  devs.map (fun d => d.map Device.ID)

/-- Every unit of the list is present and `Healthy`. -/
def allHealthy (devs : List (Option Device)) : Prop :=
  ∀ d ∈ devs, ∃ dev, d = some dev ∧ dev.Health = Healthy

/-- What the sends of a state look like from index `n` on: the `j`-th one
got the answer `send j`, and carries the unit IDs `ids`, all `Healthy`. -/
def sendsFrom (send : Nat → Option GoError) (ids : List (Option String)) (n : Nat)
    (sends : List (ListAndWatchResponse × Option GoError)) : Prop :=
  ∀ (j : Nat) (s : ListAndWatchResponse × Option GoError), n ≤ j → sends[j]? = some s →
    s.2 = send j ∧ unitIDs s.1.Devices = ids ∧ allHealthy s.1.Devices

/-- The two shapes a run of `Start` can have: it ends in its first failed
step, with an error and without a registration; or all steps before the
registration succeeded and the registration call is followed only by a
log line and the close of the connection. -/
def startShape (resourceName : String) (env : StartEnv) (run : Run) : Prop :=
  (∃ front last err, run.trace = front ++ [last] ∧ run.err = some err ∧
    (∀ e ∈ front, e.isRegister = false) ∧ (∀ e ∈ front, e.failed = false) ∧
    last.isRegister = false ∧ last.failed = true) ∨
  (∃ front, run.trace = front ++
      Event.register { Version := Version, Endpoint := "ib-device-plugin.sock",
                       ResourceName := resourceName } env.register ::
      [Event.log "Infiniband device plugin registered", Event.connClose KubeletSocket] ∧
    run.err = env.register ∧
    (∀ e ∈ front, e.isRegister = false) ∧ (∀ e ∈ front, e.failed = false) ∧
    List.Sublist readySteps front)
/-! # Theorems -/

/-! ## Lemmas on `Allocate` -/

theorem take_succ_set {α : Type} (l : List α) (i : Nat) (x : α) (h : i < l.length) :
    (l.set i x).take (i + 1) = l.take i ++ [x] := by
  induction l generalizing i with
  | nil => simp at h
  | cons a l ih =>
    cases i with
    | zero => simp
    | succ i =>
      simp only [List.length_cons, Nat.add_lt_add_iff_right] at h
      simp [ih i h]

theorem allocateDevicesLoop_eq (rest : List String) :
    ∀ (i : Nat) (devices : List (Option DeviceSpec)),
      devices.length = i + rest.length →
      allocateDevicesLoop i rest devices = devices.take i ++ rest.map specOf := by
  induction rest with
  | nil =>
    intro i devices h
    simp only [List.length_nil, Nat.add_zero] at h
    simp [allocateDevicesLoop, ← h]
  | cons device rest ih =>
    intro i devices h
    simp only [List.length_cons] at h
    have hi : i < devices.length := by omega
    rw [allocateDevicesLoop, ih (i + 1) _ (by simp; omega), take_succ_set _ _ _ hi]
    simp [specOf]

theorem allocateDevices_eq (devices : List String) :
    allocateDevicesLoop 0 devices (List.replicate devices.length none)
      = devices.map specOf := by
  rw [allocateDevicesLoop_eq devices 0 _ (by simp)]
  simp

theorem allocateLoop_eq (p : IbDevicePlugin) (rest : List (Option ContainerAllocateRequest)) :
    ∀ (i : Nat) (responses : List (Option ContainerAllocateResponse)),
      responses.length = i + rest.length →
      (∀ r ∈ rest, r ≠ none) →
      allocateLoop p i rest responses
        = .ok (responses.take i ++ rest.map (fun r => r.bind (responseOf p.devices))) := by
  induction rest with
  | nil =>
    intro i responses h _
    simp only [List.length_nil, Nat.add_zero] at h
    simp [allocateLoop, ← h]
  | cons containerReq rest ih =>
    intro i responses h hnn
    simp only [List.length_cons] at h
    have hi : i < responses.length := by omega
    have hrest : ∀ r ∈ rest, r ≠ none := fun r hr => hnn r (List.mem_cons_of_mem _ hr)
    cases containerReq with
    | none => exact absurd rfl (hnn none (List.mem_cons_self _ _))
    | some req =>
      by_cases h0 : req.DevicesIDs.length = 0
      · have h0' : req.DevicesIDs = [] := List.length_eq_zero.mp h0
        simp only [allocateLoop, h0, if_true]
        rw [ih (i + 1) _ (by simp; omega) hrest, take_succ_set _ _ _ hi]
        simp [responseOf, h0']
      · have h0' : req.DevicesIDs ≠ [] := fun hc => h0 (by simp [hc])
        simp only [allocateLoop, h0, if_false, List.set_set]
        rw [ih (i + 1) _ (by simp; omega) hrest, take_succ_set _ _ _ hi, allocateDevices_eq]
        simp [responseOf, h0']

theorem Allocate_eq (p : IbDevicePlugin) (reqs : AllocateRequest)
    (hnn : ∀ r ∈ reqs.ContainerRequests, r ≠ none) :
    Allocate p reqs
      = .ok ({ ContainerResponses :=
                reqs.ContainerRequests.map (fun r => r.bind (responseOf p.devices)) },
             none) := by
  unfold Allocate
  rw [allocateLoop_eq p _ 0 _ (by simp) hnn]
  simp


/-- C1: on a batch whose container requests are all non-nil, `Allocate`
returns a nil error and one response per request, and the response at
position `i` is the single response `Allocate` gives, with any plugin
holding the same device-path inventory, to the batch made of request `i`
alone. -/
theorem Allocate_positional (p : IbDevicePlugin) (reqs : AllocateRequest)
    (hnn : ∀ r ∈ reqs.ContainerRequests, r ≠ none) :
    ∃ resp, Allocate p reqs = .ok (resp, none) ∧
      resp.ContainerResponses.length = reqs.ContainerRequests.length ∧
      ∀ (i : Nat) (r : Option ContainerAllocateRequest),
        reqs.ContainerRequests[i]? = some r →
        ∃ cr, resp.ContainerResponses[i]? = some cr ∧
          ∀ q : IbDevicePlugin, q.devices = p.devices →
            Allocate q { ContainerRequests := [r] }
              = .ok ({ ContainerResponses := [cr] }, none) := by
  refine ⟨_, Allocate_eq p reqs hnn, by simp, ?_⟩
  intro i r hi
  refine ⟨r.bind (responseOf p.devices), by simp [hi], ?_⟩
  intro q hq
  have hr : r ≠ none := hnn r (List.getElem?_mem hi)
  rw [Allocate_eq q _ (by simpa using hr), hq]
  simp

/-- C1, at a batch of two requests. -/
theorem Allocate_positional_witness :
    ∃ resp,
      Allocate { devs := [], devices := ["/dev/infiniband/uverbs0"], server := none }
        { ContainerRequests := [some { DevicesIDs := ["a"] }, some { DevicesIDs := [] }] }
        = .ok (resp, none) ∧
      resp.ContainerResponses.length = 2 :=
  (Allocate_positional
    { devs := [], devices := ["/dev/infiniband/uverbs0"], server := none }
    { ContainerRequests := [some { DevicesIDs := ["a"] }, some { DevicesIDs := [] }] }
    (by decide)).imp (fun _ h => ⟨h.1, h.2.1⟩)

/-- C2: for a container request with at least one unit ID, in a batch of
non-nil requests, the device specs of its response follow the device-path
inventory entry by entry: same length, and entry `j` has the `j`-th
inventory path as `HostPath` and as `ContainerPath`, with `Permissions`
equal to `rw`. -/
theorem Allocate_nonempty_ids (p : IbDevicePlugin) (reqs : AllocateRequest)
    (hnn : ∀ r ∈ reqs.ContainerRequests, r ≠ none)
    (i : Nat) (req : ContainerAllocateRequest)
    (hi : reqs.ContainerRequests[i]? = some (some req))
    (hne : req.DevicesIDs ≠ []) :
    ∃ resp cr, Allocate p reqs = .ok (resp, none) ∧
      resp.ContainerResponses[i]? = some (some cr) ∧
      cr.Devices.length = p.devices.length ∧
      ∀ (j : Nat) (path : String), p.devices[j]? = some path →
        cr.Devices[j]? =
          some (some { HostPath := path, ContainerPath := path, Permissions := "rw" }) := by
  refine ⟨_, { Devices := p.devices.map specOf }, Allocate_eq p reqs hnn, ?_, by simp, ?_⟩
  · simp [hi, responseOf, hne]
  · intro j path hj
    simp [hj, specOf]

/-- C2, at a request naming three unit IDs that the plugin never built. -/
theorem Allocate_nonempty_ids_witness :
    ∃ resp cr,
      Allocate { devs := [], devices := ["/dev/infiniband/a", "/dev/infiniband/b"],
                 server := none }
        { ContainerRequests := [some { DevicesIDs := ["x", "y", "z"] }] }
        = .ok (resp, none) ∧
      resp.ContainerResponses[0]? = some (some cr) ∧
      cr.Devices.length = 2 :=
  (Allocate_nonempty_ids
    { devs := [], devices := ["/dev/infiniband/a", "/dev/infiniband/b"], server := none }
    { ContainerRequests := [some { DevicesIDs := ["x", "y", "z"] }] }
    (by decide) 0 { DevicesIDs := ["x", "y", "z"] } (by decide) (by decide)).imp
    (fun _ h => h.imp (fun _ h => ⟨h.1, h.2.1, h.2.2.1⟩))

/-- C3: for a container request with no unit ID, in a batch of non-nil
requests, `Allocate` returns a nil error and the response of that request
has no device spec, whatever the device-path inventory holds. -/
theorem Allocate_empty_ids (p : IbDevicePlugin) (reqs : AllocateRequest)
    (hnn : ∀ r ∈ reqs.ContainerRequests, r ≠ none)
    (i : Nat) (req : ContainerAllocateRequest)
    (hi : reqs.ContainerRequests[i]? = some (some req))
    (hempty : req.DevicesIDs = []) :
    ∃ resp cr, Allocate p reqs = .ok (resp, none) ∧
      resp.ContainerResponses[i]? = some (some cr) ∧
      cr.Devices = [] := by
  refine ⟨_, { Devices := [] }, Allocate_eq p reqs hnn, ?_, rfl⟩
  simp [hi, responseOf, hempty]

/-- C3, at a plugin with a non-empty inventory. -/
theorem Allocate_empty_ids_witness :
    ∃ resp cr,
      Allocate { devs := [], devices := ["/dev/infiniband/a"], server := none }
        { ContainerRequests := [some { DevicesIDs := ["x"] }, some { DevicesIDs := [] }] }
        = .ok (resp, none) ∧
      resp.ContainerResponses[1]? = some (some cr) ∧
      cr.Devices = [] :=
  Allocate_empty_ids
    { devs := [], devices := ["/dev/infiniband/a"], server := none }
    { ContainerRequests := [some { DevicesIDs := ["x"] }, some { DevicesIDs := [] }] }
    (by decide) 1 { DevicesIDs := [] } (by decide) rfl

/-! ## Lemmas on `fmt.Sprintf("%d", _)` -/

theorem digitByte_inj (a b : Nat) (ha : a < 10) (hb : b < 10)
    (h : digitByte a = digitByte b) : a = b := by
  interval_cases a <;> interval_cases b <;> first | rfl | (exact absurd h (by decide))

theorem decDigits_ne_nil (u : Nat) : decDigits u ≠ [] := by
  rw [decDigits.eq_1 u]
  split <;> simp

theorem decDigits_inj : ∀ u v : Nat, decDigits u = decDigits v → u = v := by
  intro u
  induction u using Nat.strong_induction_on with
  | _ u ih =>
    intro v h
    rw [decDigits.eq_1 u, decDigits.eq_1 v] at h
    by_cases hu : u ≥ 10 <;> by_cases hv : v ≥ 10
    · simp only [hu, hv, dite_true] at h
      obtain ⟨h1, h2⟩ := List.append_inj' h rfl
      have hq := ih (u / 10) (by omega) (v / 10) h1
      have hr := digitByte_inj (u % 10) (v % 10) (Nat.mod_lt _ (by decide))
        (Nat.mod_lt _ (by decide)) (by simpa using h2)
      omega
    · simp only [hu, hv, dite_true, dite_false] at h
      have hl := congrArg List.length h
      simp only [List.length_append, List.length_singleton] at hl
      have := List.length_pos.mpr (decDigits_ne_nil (u / 10))
      omega
    · simp only [hu, hv, dite_true, dite_false] at h
      have hl := congrArg List.length h
      simp only [List.length_append, List.length_singleton] at hl
      have := List.length_pos.mpr (decDigits_ne_nil (v / 10))
      omega
    · simp only [hu, hv, dite_false] at h
      exact digitByte_inj u v (by omega) (by omega) (by simpa using h)

theorem fmtIntegerLoop_eq : ∀ (fuel u : Nat) (buf : List Char), u ≤ fuel →
    fmtIntegerLoop fuel u buf = decDigits u ++ buf := by
  intro fuel
  induction fuel with
  | zero =>
    intro u buf h
    have hu : u = 0 := by omega
    subst hu
    rw [decDigits.eq_1]
    simp [fmtIntegerLoop]
  | succ fuel ih =>
    intro u buf h
    rw [decDigits.eq_1 u]
    by_cases hu : u ≥ 10
    · have hm : u - u / 10 * 10 = u % 10 := by omega
      simp only [fmtIntegerLoop, hu, if_true, dite_true, hm]
      rw [ih (u / 10) _ (by omega)]
      simp
    · simp [fmtIntegerLoop, hu]

theorem fmtInteger_natCast (i : Nat) : fmtInteger (i : Int) = String.mk (decDigits i) := by
  have h : ¬ ((i : Int) < 0) := by omega
  simp [fmtInteger, h, fmtIntegerLoop_eq i i [] (Nat.le_refl i)]

theorem fmtInteger_natCast_inj (i j : Nat)
    (h : fmtInteger (i : Int) = fmtInteger (j : Int)) : i = j := by
  rw [fmtInteger_natCast, fmtInteger_natCast] at h
  exact decDigits_inj i j (by injection h)

/-! ## Lemmas on `NewIbDevicePlugin` -/

/-- The unit the constructor stores at index `i`. -/
theorem newDevsLoop_eq : ∀ (left i : Nat) (devs : List (Option Device)),
    devs.length = i + left →
    newDevsLoop left i devs = devs.take i ++ (List.range' i left).map
      (fun k : Nat => some
        { ID := "ib-plugin/infiniband-" ++ fmtInteger (k : Int), Health := Healthy }) := by
  intro left
  induction left with
  | zero =>
    intro i devs h
    simp only [Nat.add_zero] at h
    simp [newDevsLoop, ← h]
  | succ left ih =>
    intro i devs h
    have hi : i < devs.length := by omega
    rw [newDevsLoop, ih (i + 1) _ (by simp; omega), take_succ_set _ _ _ hi]
    simp [List.range'_succ]

theorem newDevs_eq (n : Nat) :
    newDevsLoop n 0 (List.replicate n none) = (List.range n).map
      (fun k : Nat => some
        { ID := "ib-plugin/infiniband-" ++ fmtInteger (k : Int), Health := Healthy }) := by
  rw [newDevsLoop_eq n 0 _ (by simp), List.range_eq_range']
  simp

/-! ## Lemmas on `path.Join` -/

theorem Lazybuf.append_full (out : Lazybuf) (c : Char) (h : out.w = out.buf.length) :
    out.append c = { buf := out.buf ++ [c], w := out.buf.length + 1 } := by
  simp [Lazybuf.append, h]

theorem cleanCopy_elem : ∀ (e tail : List Char) (out : Lazybuf),
    '/' ∉ e → (tail = [] ∨ tail.head? = some '/') → out.w = out.buf.length →
    cleanCopy (e ++ tail) out
      = (tail, { buf := out.buf ++ e, w := out.buf.length + e.length }) := by
  intro e
  induction e with
  | nil =>
    intro tail out _ ht hw
    obtain ⟨buf, w⟩ := out
    simp only at hw
    subst hw
    cases tail with
    | nil => simp [cleanCopy]
    | cons c tail =>
      have hc : c = '/' := by simpa using ht
      simp [cleanCopy, hc]
  | cons c e ih =>
    intro tail out he ht hw
    have hc : c ≠ '/' := fun hc => he (by simp [hc])
    have he' : '/' ∉ e := fun hm => he (List.mem_cons_of_mem _ hm)
    rw [List.cons_append, cleanCopy]
    simp only [hc, if_false]
    rw [Lazybuf.append_full out c hw, ih tail _ he' ht (by simp)]
    simp [Nat.add_assoc, Nat.add_comm 1]

/-- One pass of the main loop of `path.Clean` over a path element that is
neither `.` nor `..`: a slash is written if the buffer already holds an
element, then the element is copied. -/
theorem cleanLoop_elem (rooted : Bool) (fuel : Nat) (e tail : List Char) (dotdot : Nat)
    (out : Lazybuf)
    (hne : e ≠ []) (hs : '/' ∉ e) (hdot : e ≠ ['.']) (hdotdot : e ≠ ['.', '.'])
    (ht : tail = [] ∨ tail.head? = some '/') (hw : out.w = out.buf.length) :
    cleanLoop rooted (fuel + 1) (e ++ tail) dotdot out
      = cleanLoop rooted fuel tail dotdot
          (if (rooted ∧ out.w ≠ 1) ∨ (¬ rooted ∧ out.w ≠ 0) then
            { buf := out.buf ++ '/' :: e, w := out.buf.length + 1 + e.length }
          else { buf := out.buf ++ e, w := out.buf.length + e.length }) := by
  cases e with
  | nil => exact absurd rfl hne
  | cons c e =>
    have hc : c ≠ '/' := fun hc => hs (by simp [hc])
    have he : '/' ∉ e := fun hm => hs (List.mem_cons_of_mem _ hm)
    have h2 : ¬ (c = '.' ∧ (e ++ tail = [] ∨ (e ++ tail).head? = some '/')) := by
      rintro ⟨hc', h⟩
      cases e with
      | nil => exact hdot (by simp [hc'])
      | cons d e =>
        have hd : d ≠ '/' := fun hd => he (by simp [hd])
        simp [hd] at h
    have h3 : ¬ (c = '.' ∧ (e ++ tail).head? = some '.' ∧
        ((e ++ tail).tail = [] ∨ (e ++ tail).tail.head? = some '/')) := by
      rintro ⟨hc', h, h'⟩
      cases e with
      | nil =>
        rcases ht with ht | ht
        · simp [ht] at h
        · simp [ht] at h
      | cons d e =>
        have hd : d = '.' := by simpa using h
        cases e with
        | nil => exact hdotdot (by simp [hc', hd])
        | cons f e =>
          have hf : f ≠ '/' := fun hf => he (by simp [hf])
          simp [hf] at h'
    rw [List.cons_append, cleanLoop]
    simp only [hc, if_false, h2, h3]
    rw [← List.cons_append]
    by_cases hcond : (rooted = true ∧ out.w ≠ 1) ∨ (¬ rooted = true ∧ out.w ≠ 0)
    · simp only [hcond, if_true]
      rw [Lazybuf.append_full out '/' hw, cleanCopy_elem (c :: e) tail _ hs ht (by simp)]
      simp
    · simp only [hcond, if_false]
      rw [cleanCopy_elem (c :: e) tail _ hs ht hw]

theorem cleanLoop_slash (rooted : Bool) (fuel : Nat) (rest : List Char) (dotdot : Nat)
    (out : Lazybuf) :
    cleanLoop rooted (fuel + 1) ('/' :: rest) dotdot out
      = cleanLoop rooted fuel rest dotdot out := by
  simp [cleanLoop]

theorem cleanLoop_nil (rooted : Bool) (fuel dotdot : Nat) (out : Lazybuf) :
    cleanLoop rooted fuel [] dotdot out = out := by
  cases fuel <;> simp [cleanLoop]

/-- Joining the device directory with the name of a directory entry puts
the name after `/dev/infiniband/`: `path.Clean` leaves such a path as it is. -/
theorem Join_ibDevicePath (name : String) (h : validName name) :
    Join [ibDevicePath, name] = "/dev/infiniband/" ++ name := by
  obtain ⟨hne, hs, hdot, hdotdot⟩ := h
  have hdot' : name.data ≠ ['.'] := fun hc => hdot (String.ext hc)
  have hdotdot' : name.data ≠ ['.', '.'] := fun hc => hdotdot (String.ext hc)
  have hjoin : joinLoop [ibDevicePath, name] []
      = '/' :: (['d', 'e', 'v'] ++ '/' ::
          (['i', 'n', 'f', 'i', 'n', 'i', 'b', 'a', 'n', 'd'] ++ '/' :: (name.data ++ []))) := by
    have h1 : ibDevicePath.data
        = ['/', 'd', 'e', 'v', '/', 'i', 'n', 'f', 'i', 'n', 'i', 'b', 'a', 'n', 'd'] := rfl
    have h2 : ibDevicePath ≠ "" := by decide
    simp [joinLoop, h1, h2]
  have hsize : ¬ (([ibDevicePath, name].map String.length).sum = 0) := by
    have h1 : ibDevicePath.length = 15 := rfl
    simp [h1]
  have hlen : ('/' :: (['d', 'e', 'v'] ++ '/' ::
          (['i', 'n', 'f', 'i', 'n', 'i', 'b', 'a', 'n', 'd'] ++ '/' ::
            (name.data ++ [])))).length = (((((name.data.length + 10) + 1) + 1) + 1) + 1) + 2 := by
    simp
  unfold Join
  simp only [hsize, if_false, hjoin]
  unfold Clean
  have hnz : ¬ (String.mk ('/' :: (['d', 'e', 'v'] ++ '/' ::
          (['i', 'n', 'f', 'i', 'n', 'i', 'b', 'a', 'n', 'd'] ++ '/' ::
            (name.data ++ [])))) = "") := by
    intro hc
    have := congrArg String.data hc
    exact absurd this (List.cons_ne_nil _ _)
  simp only [hnz, if_false, hlen]
  simp only [List.head?_cons, decide_True, if_true, List.tail_cons]
  rw [Lazybuf.append_full _ _ (by simp)]
  rw [cleanLoop_elem true _ ['d', 'e', 'v'] _ 1 _ (by simp) (by decide) (by decide)
    (by decide) (by simp) (by simp)]
  simp only [ne_eq, and_true, true_and, not_true, false_and, or_false, if_false,
    List.length_singleton, OfNat.ofNat_ne_one, not_false_eq_true, if_true, List.length_cons,
    List.length_nil]
  rw [cleanLoop_slash true (name.data.length + 14)]
  rw [cleanLoop_elem true (name.data.length + 13) ['i', 'n', 'f', 'i', 'n', 'i', 'b', 'a', 'n', 'd']
    _ 1 _ (by simp) (by decide) (by decide) (by decide) (by simp) (by simp)]
  rw [cleanLoop_slash true (name.data.length + 12)]
  rw [cleanLoop_elem true (name.data.length + 11) name.data [] 1 _ hne hs hdot' hdotdot'
    (by simp) (by simp)]
  rw [cleanLoop_nil]
  simp only [Lazybuf.string]
  apply String.ext
  have hpre : ("/dev/infiniband/" : String).data
      = ['/', 'd', 'e', 'v', '/', 'i', 'n', 'f', 'i', 'n', 'i', 'b', 'a', 'n', 'd', '/'] := rfl
  rw [String.data_append, hpre, List.take_of_length_le (by simp; omega)]
  simp

theorem digitChar_eq_digitByte (d : Nat) (h : d < 10) : Nat.digitChar d = digitByte d := by
  interval_cases d <;> rfl

theorem toDigitsCore_eq : ∀ (fuel n : Nat) (ds : List Char), n < fuel →
    Nat.toDigitsCore 10 fuel n ds = decDigits n ++ ds := by
  intro fuel
  induction fuel with
  | zero => intro n ds h; omega
  | succ fuel ih =>
    intro n ds h
    rw [decDigits.eq_1 n]
    by_cases hn : n ≥ 10
    · have h0 : ¬ (n / 10 = 0) := by omega
      simp only [Nat.toDigitsCore, h0, if_false, hn, dite_true]
      rw [ih (n / 10) _ (by omega), digitChar_eq_digitByte _ (Nat.mod_lt _ (by decide))]
      simp
    · have h0 : n / 10 = 0 := by omega
      have hm : n % 10 = n := by omega
      simp only [Nat.toDigitsCore, h0, if_true, hn, dite_false, hm]
      rw [digitChar_eq_digitByte n (by omega)]
      simp

/-- The model of `%d` agrees with the decimal rendering of the Lean
library on natural numbers. -/
theorem fmtInteger_eq_toString (i : Nat) : fmtInteger (i : Int) = toString i := by
  rw [fmtInteger_natCast]
  show _ = Nat.repr i
  simp [Nat.repr, Nat.toDigits, toDigitsCore_eq (i + 1) i [] (Nat.lt_succ_self i),
    List.asString]

theorem newDevs_eq' (rt : GoRuntime) (N : Int) (hN : 0 ≤ N)
    (hlen : ptrSize * N.toNat < 2 ^ 64) (hmax : ptrSize * N.toNat ≤ rt.maxAlloc)
    (hmem : rt.outOfMemory N.toNat = false) :
    newDevs rt N = .ok ((List.range N.toNat).map
      (fun k : Nat => some
        { ID := "ib-plugin/infiniband-" ++ fmtInteger (k : Int), Health := Healthy })) := by
  have h1 : ¬ (ptrSize * N.toNat ≥ 2 ^ 64) := by omega
  have h2 : ¬ (ptrSize * N.toNat > rt.maxAlloc) := by omega
  have h3 : ¬ (N < 0) := by omega
  have hr : makesliceLenOutOfRange rt N = false := by
    simp only [makesliceLenOutOfRange, h1, h2, h3, decide_False, Bool.or_self]
  unfold newDevs
  rw [hr, hmem, newDevs_eq]
  rfl

theorem newDevs_ok (rt : GoRuntime) (N : Int) (devs : List (Option Device))
    (h : newDevs rt N = .ok devs) :
    devs = (List.range N.toNat).map
      (fun k : Nat => some
        { ID := "ib-plugin/infiniband-" ++ fmtInteger (k : Int), Health := Healthy }) := by
  unfold newDevs at h
  by_cases h1 : makesliceLenOutOfRange rt N = true
  · rw [if_pos h1] at h
    exact absurd h (by simp)
  · rw [if_neg h1] at h
    by_cases h2 : rt.outOfMemory N.toNat = true
    · rw [if_pos h2] at h
      exact absurd h (by simp)
    · rw [if_neg h2, newDevs_eq] at h
      exact (Except.ok.inj h).symm

theorem allHealthy_units (n : Nat) :
    allHealthy ((List.range n).map
      (fun k : Nat => some
        { ID := "ib-plugin/infiniband-" ++ fmtInteger (k : Int), Health := Healthy })) := by
  intro d hd
  simp only [List.mem_map] at hd
  obtain ⟨k, _, hk⟩ := hd
  exact ⟨_, hk.symm, rfl⟩

theorem scanLoop_eq : ∀ (files : List DirEntry) (devices : List String),
    scanLoop files devices
      = devices ++ files.map (fun file => Join [ibDevicePath, file.name]) := by
  intro files
  induction files with
  | nil => intro devices; simp [scanLoop]
  | cons file files ih => intro devices; simp [scanLoop, ih]

theorem unitID_inj (i j : Nat)
    (h : "ib-plugin/infiniband-" ++ fmtInteger (i : Int)
        = "ib-plugin/infiniband-" ++ fmtInteger (j : Int)) : i = j := by
  have hd := congrArg String.data h
  rw [String.data_append, String.data_append] at hd
  exact fmtInteger_natCast_inj i j (String.ext (List.append_cancel_left hd))

theorem NewIbDevicePlugin_devs (rt : GoRuntime) (N : Int) (os : DeviceDir)
    (p : IbDevicePlugin) (hp : NewIbDevicePlugin rt N os = .ok p) :
    newDevs rt N = .ok p.devs := by
  unfold NewIbDevicePlugin at hp
  cases hnd : newDevs rt N with
  | error e =>
    rw [hnd] at hp
    exact absurd hp (by simp)
  | ok devs =>
    rw [hnd] at hp
    rcases os with ⟨stat, files, rerr⟩
    cases stat with
    | error err =>
      by_cases he : IsNotExist err = true
      · simp only [he, if_true, Except.ok.injEq] at hp
        rw [← hp]
      · simp [he] at hp
    | ok info =>
      by_cases hd : info.isDir = true
      · cases rerr with
        | none =>
          simp only [hd, if_true, Except.ok.injEq] at hp
          rw [← hp]
        | some err => simp [hd] at hp
      · simp only [hd, Bool.false_eq_true, if_false, Except.ok.injEq] at hp
        rw [← hp]

theorem newDevs_facts (rt : GoRuntime) (N : Int) (hN : 0 ≤ N)
    (hlen : ptrSize * N.toNat < 2 ^ 64) (hmax : ptrSize * N.toNat ≤ rt.maxAlloc)
    (hmem : rt.outOfMemory N.toNat = false) :
    ∃ devs : List (Option Device), newDevs rt N = .ok devs ∧
      devs.length = N.toNat ∧ allHealthy devs :=
  ⟨_, newDevs_eq' rt N hN hlen hmax hmem, by simp, allHealthy_units _⟩

/-- The constructor returns a plugin whenever the unit list is built and
the scan of the device directory does not end the process. -/
theorem NewIbDevicePlugin_returns (rt : GoRuntime) (N : Int) (os : DeviceDir)
    (devs : List (Option Device)) (hdevs : newDevs rt N = .ok devs)
    (hstat : ∀ err, os.stat = .error err → IsNotExist err = true)
    (hread : ∀ info, os.stat = .ok info → info.isDir = true → os.readDir.2 = none) :
    ∃ p, NewIbDevicePlugin rt N os = .ok p ∧ p.devs = devs := by
  unfold NewIbDevicePlugin
  rw [hdevs]
  rcases os with ⟨stat, files, rerr⟩
  cases stat with
  | error err =>
    have he : IsNotExist err = true := hstat err rfl
    exact ⟨{ devs := devs, devices := [], server := none }, by simp only [he, if_true], rfl⟩
  | ok info =>
    by_cases hd : info.isDir = true
    · have hr : rerr = none := hread info rfl hd
      subst hr
      exact ⟨{ devs := devs, devices := scanLoop files [], server := none },
        by simp only [hd, if_true], rfl⟩
    · exact ⟨{ devs := devs, devices := [], server := none },
        by simp only [hd, Bool.false_eq_true, if_false], rfl⟩

/-- C4 as stated fails: for the unit count `2 ^ 62`, which is not negative,
`make` panics, because the size of the slice overflows, so no unit list is
built and the constructor returns no plugin, even with a device directory
that lists without error. -/
theorem NewIbDevicePlugin_units_counterexample :
    0 ≤ (2 ^ 62 : Int) ∧
    newDevs { maxAlloc := 2 ^ 48, outOfMemory := fun _ => false } (2 ^ 62)
      = .error (.panic "runtime error: makeslice: len out of range") ∧
    NewIbDevicePlugin { maxAlloc := 2 ^ 48, outOfMemory := fun _ => false } (2 ^ 62)
        { stat := .ok { isDir := true }, readDir := ([{ name := "mlx5_0" }], none) }
      = .error (.panic "runtime error: makeslice: len out of range") := by
  refine ⟨by decide, ?_, ?_⟩
  · rfl
  · rfl

/-- C4, amended: for every unit count `N ≥ 0` whose slice `make` accepts
(`8 * N` is below `2 ^ 64` and at most the allocator limit) and for which
the machine has the memory, and for every device directory whose scan
does not end the process, the constructor returns a plugin whose unit list
has exactly `N` units; the unit at index `i` has ID `ib-plugin/infiniband-`
followed by `i` in decimal and health `Healthy`; and the IDs are pairwise
distinct. -/
theorem NewIbDevicePlugin_units (rt : GoRuntime) (N : Int) (hN : 0 ≤ N)
    (hlen : ptrSize * N.toNat < 2 ^ 64) (hmax : ptrSize * N.toNat ≤ rt.maxAlloc)
    (hmem : rt.outOfMemory N.toNat = false) (os : DeviceDir)
    (hstat : ∀ err, os.stat = .error err → IsNotExist err = true)
    (hread : ∀ info, os.stat = .ok info → info.isDir = true → os.readDir.2 = none) :
    ∃ p, NewIbDevicePlugin rt N os = .ok p ∧
      p.devs.length = N.toNat ∧
      (∀ i : Nat, i < N.toNat →
        p.devs[i]? = some (some
          { ID := "ib-plugin/infiniband-" ++ toString i, Health := Healthy })) ∧
      (unitIDs p.devs).Nodup ∧
      allHealthy p.devs := by
  obtain ⟨p, hp, hpd⟩ := NewIbDevicePlugin_returns rt N os _
    (newDevs_eq' rt N hN hlen hmax hmem) hstat hread
  refine ⟨p, hp, ?_, ?_, ?_, ?_⟩
  · rw [hpd]
    simp
  · intro i hi
    rw [hpd]
    simp [hi, fmtInteger_eq_toString]
  · rw [hpd]
    simp only [unitIDs, List.map_map]
    refine List.Nodup.map ?_ (List.nodup_range _)
    intro i j hij
    simp only [Function.comp, Option.map_some', Option.some.injEq] at hij
    exact unitID_inj i j hij
  · rw [hpd]
    exact allHealthy_units _

/-- C4 amended, at three units and an absent device directory. -/
theorem NewIbDevicePlugin_units_witness :
    ∃ p, NewIbDevicePlugin { maxAlloc := 2 ^ 48, outOfMemory := fun _ => false } 3
        { stat := .error { msg := "no such file or directory", isNotExist := true },
          readDir := ([], none) } = .ok p ∧
      p.devs.length = 3 ∧
      p.devs[2]? = some (some { ID := "ib-plugin/infiniband-2", Health := Healthy }) ∧
      (unitIDs p.devs).Nodup :=
  (NewIbDevicePlugin_units { maxAlloc := 2 ^ 48, outOfMemory := fun _ => false } 3
    (by decide) (by decide) (by decide) rfl
    { stat := .error { msg := "no such file or directory", isNotExist := true },
      readDir := ([], none) }
    (by intro err h; cases h; rfl) (by intro info h; cases h)).imp
    (fun _ h => ⟨h.1, h.2.1, h.2.2.1 2 (by decide), h.2.2.2.1⟩)

/-- C9 as stated fails: with `2 ^ 62` units asked for, construction does
not complete when the device directory is absent, nor when the path is not
a directory: `make` panics before the scan is reached. -/
theorem NewIbDevicePlugin_scan_counterexample :
    NewIbDevicePlugin { maxAlloc := 2 ^ 48, outOfMemory := fun _ => false } (2 ^ 62)
        { stat := .error { msg := "no such file or directory", isNotExist := true },
          readDir := ([], none) }
      = .error (.panic "runtime error: makeslice: len out of range") ∧
    NewIbDevicePlugin { maxAlloc := 2 ^ 48, outOfMemory := fun _ => false } (2 ^ 62)
        { stat := .ok { isDir := false }, readDir := ([], none) }
      = .error (.panic "runtime error: makeslice: len out of range") :=
  ⟨rfl, rfl⟩

/-- C9, amended: once the unit list is built, the device-path list of the
plugin follows the one scan of the device directory. For `N` units that
the runtime can build (`N ≥ 0`, `8 * N` below `2 ^ 64` and at most the
allocator limit, memory at hand): (1) when the path is absent, or (2)
present but not a directory, the constructor returns a plugin with an
empty device-path list and the `N` healthy units; (3) when it is a
directory whose listing fails, the constructor ends the process; (4) when
it is a directory listed without error, the device-path list is
`/dev/infiniband/` followed by the entry name, one per entry, in listing
order. A later `Allocate` for a request with a unit ID returns (5) one
device spec per listed entry, and (6) none when the directory was absent. -/
theorem NewIbDevicePlugin_scan (rt : GoRuntime) (N : Int) (hN : 0 ≤ N)
    (hlen : ptrSize * N.toNat < 2 ^ 64) (hmax : ptrSize * N.toNat ≤ rt.maxAlloc)
    (hmem : rt.outOfMemory N.toNat = false) (os : DeviceDir)
    (hnames : ∀ file ∈ os.readDir.1, validName file.name) :
    (∀ err, os.stat = .error err → IsNotExist err = true →
      ∃ p, NewIbDevicePlugin rt N os = .ok p ∧ p.devices = [] ∧
        newDevs rt N = .ok p.devs ∧ p.devs.length = N.toNat ∧ allHealthy p.devs) ∧
    (os.stat = .ok { isDir := false } →
      ∃ p, NewIbDevicePlugin rt N os = .ok p ∧ p.devices = [] ∧
        newDevs rt N = .ok p.devs ∧ p.devs.length = N.toNat ∧ allHealthy p.devs) ∧
    (os.stat = .ok { isDir := true } → os.readDir.2 ≠ none →
      ∃ msg, NewIbDevicePlugin rt N os = .error (.fatal msg)) ∧
    (os.stat = .ok { isDir := true } → os.readDir.2 = none →
      ∃ p, NewIbDevicePlugin rt N os = .ok p ∧
        p.devices = os.readDir.1.map (fun file => "/dev/infiniband/" ++ file.name) ∧
        newDevs rt N = .ok p.devs ∧ p.devs.length = N.toNat ∧ allHealthy p.devs) ∧
    (∀ p, NewIbDevicePlugin rt N os = .ok p → os.stat = .ok { isDir := true } →
      ∀ req : ContainerAllocateRequest, req.DevicesIDs ≠ [] →
        Allocate p { ContainerRequests := [some req] }
          = .ok ({ ContainerResponses := [some { Devices := os.readDir.1.map (fun file =>
              some { HostPath := "/dev/infiniband/" ++ file.name,
                     ContainerPath := "/dev/infiniband/" ++ file.name,
                     Permissions := "rw" }) }] }, none)) ∧
    (∀ p, NewIbDevicePlugin rt N os = .ok p → (∀ info, os.stat ≠ .ok info) →
      ∀ req : ContainerAllocateRequest, req.DevicesIDs ≠ [] →
        Allocate p { ContainerRequests := [some req] }
          = .ok ({ ContainerResponses := [some { Devices := [] }] }, none)) := by
  obtain ⟨devs, hdevs, hlen', hhealthy⟩ := newDevs_facts rt N hN hlen hmax hmem
  have hjoin : os.readDir.1.map (fun file => Join [ibDevicePath, file.name])
      = os.readDir.1.map (fun file => "/dev/infiniband/" ++ file.name) :=
    List.map_congr_left (fun file hf => Join_ibDevicePath file.name (hnames file hf))
  rcases os with ⟨stat, files, rerr⟩
  simp only at hjoin hnames
  refine ⟨?_, ?_, ?_, ?_, ?_, ?_⟩
  · intro err hs he
    simp only at hs
    refine ⟨{ devs := devs, devices := [], server := none }, ?_, rfl, hdevs, hlen', hhealthy⟩
    simp [NewIbDevicePlugin, hdevs, hs, he]
  · intro hs
    simp only at hs
    refine ⟨{ devs := devs, devices := [], server := none }, ?_, rfl, hdevs, hlen', hhealthy⟩
    simp [NewIbDevicePlugin, hdevs, hs]
  · intro hs hr
    simp only at hs hr
    obtain ⟨err, rfl⟩ := Option.ne_none_iff_exists'.mp hr
    exact ⟨_, by simp [NewIbDevicePlugin, hdevs, hs]; rfl⟩
  · intro hs hr
    simp only at hs hr
    subst hr
    refine ⟨{ devs := devs, devices := scanLoop files [], server := none }, ?_, ?_,
      hdevs, hlen', hhealthy⟩
    · simp [NewIbDevicePlugin, hdevs, hs]
    · simp [scanLoop_eq, hjoin]
  · intro p hp hs req hreq
    simp only at hs
    cases rerr with
    | some err => simp [NewIbDevicePlugin, hdevs, hs] at hp
    | none =>
      simp only [NewIbDevicePlugin, hdevs, hs, if_true] at hp
      have hp' := (Except.ok.inj hp).symm
      subst hp'
      rw [Allocate_eq _ _ (by simp)]
      simp [responseOf, hreq, scanLoop_eq, hjoin, specOf]
  · intro p hp hs req hreq
    simp only at hs
    cases stat with
    | ok info => exact absurd rfl (hs info)
    | error err =>
      by_cases he : IsNotExist err = true
      · simp only [NewIbDevicePlugin, hdevs, he, if_true] at hp
        have hp' := (Except.ok.inj hp).symm
        subst hp'
        rw [Allocate_eq _ _ (by simp)]
        simp [responseOf, hreq]
      · simp [NewIbDevicePlugin, hdevs, he] at hp

/-- C9 amended, at a device directory holding `mlx5_0` and `mlx5_1`, and at
an absent one. -/
theorem NewIbDevicePlugin_scan_witness :
    (∃ p, NewIbDevicePlugin { maxAlloc := 2 ^ 48, outOfMemory := fun _ => false } 1
        { stat := .ok { isDir := true },
          readDir := ([{ name := "mlx5_0" }, { name := "mlx5_1" }], none) } = .ok p ∧
      p.devices = ["/dev/infiniband/mlx5_0", "/dev/infiniband/mlx5_1"]) ∧
    (∃ p, NewIbDevicePlugin { maxAlloc := 2 ^ 48, outOfMemory := fun _ => false } 1
        { stat := .error { msg := "no such file or directory", isNotExist := true },
          readDir := ([], none) } = .ok p ∧
      p.devices = []) :=
  ⟨((NewIbDevicePlugin_scan { maxAlloc := 2 ^ 48, outOfMemory := fun _ => false } 1
      (by decide) (by decide) (by decide) rfl
      { stat := .ok { isDir := true },
        readDir := ([{ name := "mlx5_0" }, { name := "mlx5_1" }], none) }
      (by decide)).2.2.2.1 rfl rfl).imp (fun _ h => ⟨h.1, h.2.1⟩),
   ((NewIbDevicePlugin_scan { maxAlloc := 2 ^ 48, outOfMemory := fun _ => false } 1
      (by decide) (by decide) (by decide) rfl
      { stat := .error { msg := "no such file or directory", isNotExist := true },
        readDir := ([], none) }
      (by decide)).1 _ rfl rfl).imp (fun _ h => ⟨h.1, h.2.1⟩)⟩

/-! ## Lemmas on `ListAndWatch` -/

theorem markHealthy_spec : ∀ devs : List (Option Device), (∀ d ∈ devs, d ≠ none) →
    ∃ devs', markHealthy devs = .ok devs' ∧ allHealthy devs' ∧
      unitIDs devs' = unitIDs devs := by
  intro devs
  induction devs with
  | nil =>
    intro _
    exact ⟨[], rfl, by simp [allHealthy], rfl⟩
  | cons d devs ih =>
    intro h
    obtain ⟨devs', h1, h2, h3⟩ := ih (fun x hx => h x (List.mem_cons_of_mem _ hx))
    cases d with
    | none => exact absurd rfl (h none (List.mem_cons_self _ _))
    | some dev =>
      refine ⟨some { dev with Health := Healthy } :: devs', by simp [markHealthy, h1], ?_, ?_⟩
      · intro x hx
        rcases List.mem_cons.mp hx with hx | hx
        · exact ⟨_, hx, rfl⟩
        · exact h2 x hx
      · simp only [unitIDs, List.map_cons] at h3 ⊢
        rw [h3]
        rfl

theorem markHealthy_unitIDs : ∀ devs devs' : List (Option Device),
    markHealthy devs = .ok devs' → unitIDs devs' = unitIDs devs := by
  intro devs
  induction devs with
  | nil =>
    intro devs' h
    simp only [markHealthy, Except.ok.injEq] at h
    rw [← h]
  | cons d devs ih =>
    intro devs' h
    cases d with
    | none => simp [markHealthy] at h
    | some dev =>
      cases hm : markHealthy devs with
      | error e => simp [markHealthy, hm] at h
      | ok rest =>
        simp only [markHealthy, hm, Except.ok.injEq] at h
        rw [← h]
        simp only [unitIDs, List.map_cons] at *
        rw [ih rest hm]
        rfl

theorem allHealthy_present (devs : List (Option Device)) (h : allHealthy devs) :
    ∀ d ∈ devs, d ≠ none := by
  intro d hd hn
  obtain ⟨dev, hdev, _⟩ := h d hd
  rw [hn] at hdev
  exact absurd hdev (by simp)

theorem watchLoop_spec (send : Nat → Option GoError) (st : WatchState)
    (hpres : ∀ d ∈ st.devs, d ≠ none) :
    ∀ k : Nat, ∃ st', watchLoop send k st = .ok st' ∧
      (∀ d ∈ st'.devs, d ≠ none) ∧
      unitIDs st'.devs = unitIDs st.devs ∧
      st'.returned = st.returned ∧
      st'.sleeps = st.sleeps + k ∧
      st'.sends.length = st.sends.length + k ∧
      st'.sends.take st.sends.length = st.sends ∧
      sendsFrom send (unitIDs st.devs) st.sends.length st'.sends := by
  intro k
  induction k with
  | zero =>
    refine ⟨st, rfl, hpres, rfl, rfl, rfl, rfl, by simp, ?_⟩
    intro j s hj hs
    have := (List.getElem?_eq_some_iff.mp hs).1
    omega
  | succ k ih =>
    obtain ⟨st1, h1, hp1, hid1, hr1, hsl1, hlen1, htake1, hfrom1⟩ := ih
    obtain ⟨devs', hm, hh, hid⟩ := markHealthy_spec st1.devs hp1
    refine ⟨{ devs := devs',
              sends := st1.sends ++ [({ Devices := devs' }, send st1.sends.length)],
              sleeps := st1.sleeps + 1,
              returned := st1.returned },
      by simp only [watchLoop, h1, watchIteration, hm], ?_, ?_, ?_, ?_, ?_, ?_, ?_⟩
    · exact allHealthy_present devs' hh
    · simp only [hid, hid1]
    · simp only [hr1]
    · simp only [hsl1]; omega
    · simp only [List.length_append, List.length_singleton, hlen1]; omega
    · simp only
      rw [List.take_append_of_le_length (by omega), htake1]
    · intro j s hj hs
      simp only at hs
      by_cases hjl : j < st1.sends.length
      · rw [List.getElem?_append_left hjl] at hs
        exact hfrom1 j s hj hs
      · have hje : j = st1.sends.length := by
          have := (List.getElem?_eq_some_iff.mp hs).1
          simp only [List.length_append, List.length_singleton] at this
          omega
        subst hje
        simp only [List.getElem?_concat_length, Option.some.injEq] at hs
        subst hs
        exact ⟨rfl, by simp only [hid, hid1], hh⟩

theorem NewIbDevicePlugin_allHealthy (rt : GoRuntime) (N : Int) (os : DeviceDir)
    (p : IbDevicePlugin) (hp : NewIbDevicePlugin rt N os = .ok p) : allHealthy p.devs := by
  rw [newDevs_ok rt N p.devs (NewIbDevicePlugin_devs rt N os p hp)]
  exact allHealthy_units _

/-- C5: for a plugin built by `NewIbDevicePlugin`, after any number `k` of
passes through the loop of `ListAndWatch`, `k + 1` snapshots were sent, the
first being the unit list as built; every snapshot carries the unit IDs of
the built list, in the same order, with every unit `Healthy`; and one pass
of the loop, from any state, leaves the sequence of unit IDs as it was. -/
theorem ListAndWatch_snapshots (rt : GoRuntime) (N : Int) (os : DeviceDir)
    (p : IbDevicePlugin) (hp : NewIbDevicePlugin rt N os = .ok p)
    (send : Nat → Option GoError) (k : Nat) :
    (∃ st, ListAndWatch p send k = .ok st ∧
      st.sends.length = k + 1 ∧
      st.sends.head?.map Prod.fst = some { Devices := p.devs } ∧
      (∀ s ∈ st.sends, unitIDs s.1.Devices = unitIDs p.devs ∧ allHealthy s.1.Devices) ∧
      unitIDs st.devs = unitIDs p.devs) ∧
    (∀ (sendErr : Option GoError) (st0 st1 : WatchState),
      watchIteration sendErr st0 = .ok st1 → unitIDs st1.devs = unitIDs st0.devs) := by
  have hh : allHealthy p.devs := NewIbDevicePlugin_allHealthy rt N os p hp
  constructor
  · obtain ⟨st, h1, -, hid, -, -, hlen, htake, hfrom⟩ :=
      watchLoop_spec send
        { devs := p.devs, sends := [({ Devices := p.devs }, send 0)], sleeps := 0,
          returned := none }
        (allHealthy_present p.devs hh) k
    simp only [List.length_singleton] at hlen htake hfrom
    have h0 : st.sends[0]? = some ({ Devices := p.devs }, send 0) := by
      have := congrArg (fun l => l[0]?) htake
      simpa [List.getElem?_take] using this
    refine ⟨st, h1, by omega, ?_, ?_, hid⟩
    · rw [List.head?_eq_getElem?, h0]
      rfl
    · intro s hs
      obtain ⟨j, hj⟩ := List.mem_iff_getElem?.mp hs
      cases j with
      | zero =>
        rw [h0] at hj
        rw [← Option.some.inj hj]
        exact ⟨rfl, hh⟩
      | succ j =>
        exact (hfrom (j + 1) s (by omega) hj).2
  · intro sendErr st0 st1 h
    unfold watchIteration at h
    cases hm : markHealthy st0.devs with
    | error e => simp [hm] at h
    | ok devs =>
      simp only [hm, Except.ok.injEq] at h
      rw [← h]
      exact markHealthy_unitIDs _ _ hm

/-- C5, at a plugin of two units, a sender that always fails, three passes. -/
theorem ListAndWatch_snapshots_witness :
    ∃ st, ListAndWatch
        { devs := [some { ID := "ib-plugin/infiniband-0", Health := Healthy },
                   some { ID := "ib-plugin/infiniband-1", Health := Healthy }],
          devices := [], server := none }
        (fun _ => some "transport is closing") 3 = .ok st ∧
      st.sends.length = 4 :=
  ((ListAndWatch_snapshots { maxAlloc := 2 ^ 48, outOfMemory := fun _ => false } 2
      { stat := .error { msg := "no such file or directory", isNotExist := true },
        readDir := ([], none) }
      { devs := [some { ID := "ib-plugin/infiniband-0", Health := Healthy },
                 some { ID := "ib-plugin/infiniband-1", Health := Healthy }],
        devices := [], server := none }
      (by decide) (fun _ => some "transport is closing") 3).1).imp
    (fun _ h => ⟨h.1, h.2.1⟩)

/-- C6 as stated fails: on a stream whose every send fails, the invocation
has not returned after two passes of the loop and has made three sends,
two of them after the first failure. -/
theorem ListAndWatch_failed_send_counterexample :
    ∃ st, ListAndWatch
        { devs := [some { ID := "ib-plugin/infiniband-0", Health := Healthy }],
          devices := [], server := none }
        (fun _ => some "transport is closing") 2 = .ok st ∧
      st.returned = none ∧
      st.sends.map Prod.snd
        = [some "transport is closing", some "transport is closing",
           some "transport is closing"] :=
  ⟨_, rfl, rfl, rfl⟩

theorem watchLoop_messages (send send' : Nat → Option GoError) :
    ∀ (k : Nat) (st st' r r' : WatchState),
      st.devs = st'.devs → st.sends.map Prod.fst = st'.sends.map Prod.fst →
      watchLoop send k st = .ok r → watchLoop send' k st' = .ok r' →
      r.devs = r'.devs ∧ r.sends.map Prod.fst = r'.sends.map Prod.fst := by
  intro k
  induction k with
  | zero =>
    intro st st' r r' hd hs h h'
    simp only [watchLoop, Except.ok.injEq] at h h'
    subst h
    subst h'
    exact ⟨hd, hs⟩
  | succ k ih =>
    intro st st' r r' hd hs h h'
    cases h1 : watchLoop send k st with
    | error e => simp [watchLoop, h1] at h
    | ok m =>
      cases h1' : watchLoop send' k st' with
      | error e => simp [watchLoop, h1'] at h'
      | ok m' =>
        obtain ⟨hmd, hms⟩ := ih st st' m m' hd hs h1 h1'
        simp only [watchLoop, h1, h1', watchIteration] at h h'
        rw [← hmd] at h'
        cases hm : markHealthy m.devs with
        | error e => simp [hm] at h
        | ok devs =>
          simp only [hm, Except.ok.injEq] at h h'
          subst h
          subst h'
          simp [hms]

/-- C6, amended: `ListAndWatch` drops what every send returns. For a plugin
whose unit list holds no nil pointer and any answers of the stream, failed
or not, after `k` passes of the loop the invocation has not returned, has
slept `k` times and made `k + 1` sends, the `j`-th of which got the `j`-th
answer; a run on a stream that fails makes the same sends, with the same
messages, as a run on a stream that never fails. -/
theorem ListAndWatch_ignores_send_result (p : IbDevicePlugin)
    (hpres : ∀ d ∈ p.devs, d ≠ none) (send : Nat → Option GoError) (k : Nat) :
    ∃ st st', ListAndWatch p send k = .ok st ∧
      ListAndWatch p (fun _ => none) k = .ok st' ∧
      st.returned = none ∧
      st.sleeps = k ∧
      st.sends.length = k + 1 ∧
      (∀ j : Nat, j ≤ k → st.sends[j]?.map Prod.snd = some (send j)) ∧
      st.sends.map Prod.fst = st'.sends.map Prod.fst := by
  obtain ⟨st, h1, -, -, hret, hsl, hlen, htake, hfrom⟩ :=
    watchLoop_spec send
      { devs := p.devs, sends := [({ Devices := p.devs }, send 0)], sleeps := 0,
        returned := none } hpres k
  obtain ⟨st', h1', -⟩ :=
    watchLoop_spec (fun _ => none)
      { devs := p.devs, sends := [({ Devices := p.devs }, none)], sleeps := 0,
        returned := none } hpres k
  simp only [List.length_singleton] at hlen htake hfrom
  have h0 : st.sends[0]? = some ({ Devices := p.devs }, send 0) := by
    have := congrArg (fun l => l[0]?) htake
    simpa [List.getElem?_take] using this
  refine ⟨st, st', h1, h1', hret, by simpa using hsl, by omega, ?_, ?_⟩
  · intro j hj
    cases j with
    | zero => rw [h0]; rfl
    | succ j =>
      have hlt : j + 1 < st.sends.length := by omega
      have hs : st.sends[j + 1]? = some st.sends[j + 1] := List.getElem?_eq_getElem hlt
      rw [hs]
      exact congrArg some (hfrom (j + 1) _ (by omega) hs).1
  · exact (watchLoop_messages send (fun _ => none) k
      { devs := p.devs, sends := [({ Devices := p.devs }, send 0)], sleeps := 0,
        returned := none }
      { devs := p.devs, sends := [({ Devices := p.devs }, none)], sleeps := 0,
        returned := none } st st' rfl rfl h1 h1').2

/-- C6 amended, at a one-unit plugin on a stream whose every send fails. -/
theorem ListAndWatch_ignores_send_result_witness :
    ∃ st st', ListAndWatch
        { devs := [some { ID := "ib-plugin/infiniband-0", Health := Healthy }],
          devices := [], server := none }
        (fun _ => some "transport is closing") 5 = .ok st ∧
      ListAndWatch
        { devs := [some { ID := "ib-plugin/infiniband-0", Health := Healthy }],
          devices := [], server := none }
        (fun _ => none) 5 = .ok st' ∧
      st.returned = none ∧
      st.sleeps = 5 ∧
      st.sends.length = 6 :=
  (ListAndWatch_ignores_send_result
    { devs := [some { ID := "ib-plugin/infiniband-0", Health := Healthy }],
      devices := [], server := none }
    (by decide) (fun _ => some "transport is closing") 5).imp
    (fun _ h => h.imp (fun _ h => ⟨h.1, h.2.1, h.2.2.1, h.2.2.2.1, h.2.2.2.2.1⟩))

/-! ## `Start` and `Stop` -/

theorem Base_serverSock : Base serverSock = "ib-device-plugin.sock" := by decide

/-- C10: `Stop` never panics. When a server is attached it is stopped
first; in every case, attached server or not, the socket file removal is
then attempted, as the last call, and `Stop` returns exactly what the
removal returned: the error if it failed, nil if it succeeded. -/
theorem Stop_result (p : IbDevicePlugin) (removeSock : Option GoError) :
    ∃ run, Stop p removeSock = .ok run ∧
      run.err = removeSock ∧
      run.plugin = p ∧
      run.trace = (if p.server = none then [] else [Event.serverStop])
        ++ [Event.remove serverSock removeSock] := by
  cases hs : p.server with
  | none => exact ⟨_, by simp [Stop, hs]; rfl, rfl, rfl, by simp⟩
  | some s => exact ⟨_, by simp [Stop, hs, GrpcServer.Stop]; rfl, rfl, rfl, by simp⟩

theorem readySteps_sublist (pre : List Event) (kubelet : Option GoError) :
    List.Sublist readySteps (pre ++ [Event.log "Starting Infiniband device plugin",
      Event.listen "unix" serverSock none, Event.newServer, Event.registerService,
      Event.serve, Event.dial serverSock 5 none, Event.connClose serverSock,
      Event.log "Infiniband device plugin started",
      Event.log "Registering Infinitband device plugin with Kubelet",
      Event.dial KubeletSocket 5 kubelet]) := by
  refine List.Sublist.trans ?_ (List.sublist_append_right pre _)
  unfold readySteps
  exact .cons _ (.cons₂ _ (.cons _ (.cons _ (.cons₂ _ (.cons₂ _ (List.nil_sublist _))))))

theorem startFromListen_listen_failed (p : IbDevicePlugin) (resourceName : String)
    (env : StartEnv) (pre : List Event) (err : GoError) (h : env.listen = some err) :
    startFromListen p resourceName env pre
      = { trace := pre ++ [Event.log "Starting Infiniband device plugin",
            Event.listen "unix" serverSock (some err)],
          plugin := p, err := some err } := by
  simp only [startFromListen, h]

theorem startFromListen_dialSelf_failed (p : IbDevicePlugin) (resourceName : String)
    (env : StartEnv) (pre : List Event) (err : GoError)
    (h1 : env.listen = none) (h2 : env.dialSelf = some err) :
    startFromListen p resourceName env pre
      = { trace := pre ++ [Event.log "Starting Infiniband device plugin",
            Event.listen "unix" serverSock none, Event.newServer, Event.registerService,
            Event.serve, Event.dial serverSock 5 (some err)],
          plugin := { p with server := some { services := ["v1beta1.DevicePlugin"] } },
          err := some err } := by
  simp only [startFromListen, h1, h2, List.append_assoc, List.cons_append, List.nil_append]

theorem startFromListen_dialKubelet_failed (p : IbDevicePlugin) (resourceName : String)
    (env : StartEnv) (pre : List Event) (err : GoError)
    (h1 : env.listen = none) (h2 : env.dialSelf = none) (h3 : env.dialKubelet = some err) :
    startFromListen p resourceName env pre
      = { trace := pre ++ [Event.log "Starting Infiniband device plugin",
            Event.listen "unix" serverSock none, Event.newServer, Event.registerService,
            Event.serve, Event.dial serverSock 5 none, Event.connClose serverSock,
            Event.log "Infiniband device plugin started",
            Event.log "Registering Infinitband device plugin with Kubelet",
            Event.dial KubeletSocket 5 (some err)],
          plugin := { p with server := some { services := ["v1beta1.DevicePlugin"] } },
          err := some err } := by
  simp only [startFromListen, h1, h2, h3, List.append_assoc, List.cons_append,
    List.nil_append]

theorem startFromListen_registered (p : IbDevicePlugin) (resourceName : String)
    (env : StartEnv) (pre : List Event)
    (h1 : env.listen = none) (h2 : env.dialSelf = none) (h3 : env.dialKubelet = none) :
    startFromListen p resourceName env pre
      = { trace := (pre ++ [Event.log "Starting Infiniband device plugin",
            Event.listen "unix" serverSock none, Event.newServer, Event.registerService,
            Event.serve, Event.dial serverSock 5 none, Event.connClose serverSock,
            Event.log "Infiniband device plugin started",
            Event.log "Registering Infinitband device plugin with Kubelet",
            Event.dial KubeletSocket 5 none]) ++
            [Event.register
              { Version := Version, Endpoint := "ib-device-plugin.sock",
                ResourceName := resourceName } env.register,
             Event.log "Infiniband device plugin registered",
             Event.connClose KubeletSocket],
          plugin := { p with server := some { services := ["v1beta1.DevicePlugin"] } },
          err := env.register } := by
  cases hr : env.register <;>
    simp only [startFromListen, h1, h2, h3, hr, Base_serverSock, List.append_assoc,
      List.cons_append, List.nil_append]

/-- A trace that ends in its only failed step and holds no registration. -/
theorem failedLast_facts (front : List Event) (last : Event)
    (hR : ∀ e ∈ front, e.isRegister = false) (hF : ∀ e ∈ front, e.failed = false)
    (hlR : last.isRegister = false) (hlF : last.failed = true) :
    (front ++ [last]).filter Event.isRegister = [] ∧
    (¬ ∃ e ∈ front ++ [last], e.isRegister = true) ∧
    (∃ e ∈ front ++ [last], e.failed = true) ∧
    afterFailure (front ++ [last]) = [] := by
  have hnone : ∀ e ∈ front ++ [last], e.isRegister = false := by
    intro e he
    rcases List.mem_append.mp he with he | he
    · exact hR e he
    · rw [List.mem_singleton.mp he]
      exact hlR
  refine ⟨?_, ?_, ⟨last, by simp, hlF⟩, ?_⟩
  · rw [List.filter_eq_nil_iff]
    intro e he
    simp [hnone e he]
  · rintro ⟨e, he, h⟩
    rw [hnone e he] at h
    exact absurd h (by decide)
  · have hF' : ∀ e ∈ front, (fun e => ! Event.failed e) e = true := by
      intro e he
      simp [hF e he]
    simp [afterFailure, List.dropWhile_append_of_pos hF', List.dropWhile, hlF]

/-- A trace with one registration call `reg` between `front` and `back`,
neither of which holds a registration or a failed step. -/
theorem registered_facts (front back : List Event) (reg : Event)
    (hR : ∀ e ∈ front, e.isRegister = false) (hF : ∀ e ∈ front, e.failed = false)
    (hbR : ∀ e ∈ back, e.isRegister = false) (hbF : ∀ e ∈ back, e.failed = false)
    (hreg : reg.isRegister = true) :
    (front ++ reg :: back).filter Event.isRegister = [reg] ∧
    beforeRegister (front ++ reg :: back) = front ∧
    ((∃ e ∈ front ++ reg :: back, e.failed = true) ↔ reg.failed = true) ∧
    (∀ e ∈ afterFailure (front ++ reg :: back), e ∈ back) := by
  have hfront : front.filter Event.isRegister = [] := by
    rw [List.filter_eq_nil_iff]
    intro e he
    simp [hR e he]
  have hback : back.filter Event.isRegister = [] := by
    rw [List.filter_eq_nil_iff]
    intro e he
    simp [hbR e he]
  have hR' : ∀ e ∈ front, (fun e => ! Event.isRegister e) e = true := by
    intro e he
    simp [hR e he]
  have hF' : ∀ e ∈ front, (fun e => ! Event.failed e) e = true := by
    intro e he
    simp [hF e he]
  have hbF' : ∀ e ∈ back, (fun e => ! Event.failed e) e = true := by
    intro e he
    simp [hbF e he]
  refine ⟨?_, ?_, ?_, ?_⟩
  · simp [List.filter_append, List.filter_cons, hfront, hback, hreg]
  · simp [beforeRegister, List.takeWhile_append_of_pos hR', List.takeWhile, hreg]
  · constructor
    · rintro ⟨e, he, h⟩
      rcases List.mem_append.mp he with he | he
      · rw [hF e he] at h
        exact absurd h (by decide)
      · rcases List.mem_cons.mp he with he | he
        · rw [← he]
          exact h
        · rw [hbF e he] at h
          exact absurd h (by decide)
    · intro h
      exact ⟨reg, by simp, h⟩
  · intro e he
    simp only [afterFailure, List.dropWhile_append_of_pos hF'] at he
    by_cases hrf : reg.failed = true
    · simpa [List.dropWhile, hrf] using he
    · have hall : List.dropWhile (fun e => ! Event.failed e) (reg :: back) = [] := by
        rw [List.dropWhile_eq_nil_iff]
        intro x hx
        rcases List.mem_cons.mp hx with hx | hx
        · rw [hx]
          simpa using hrf
        · exact hbF' x hx
      rw [hall] at he
      simp at he

theorem startFromListen_shape (p : IbDevicePlugin) (resourceName : String)
    (env : StartEnv) (pre : List Event)
    (hR : ∀ e ∈ pre, e.isRegister = false) (hF : ∀ e ∈ pre, e.failed = false) :
    startShape resourceName env (startFromListen p resourceName env pre) := by
  have hmem : ∀ (mid : List Event) (q : Event → Bool), (∀ e ∈ pre, q e = false) →
      (∀ e ∈ mid, q e = false) → ∀ e ∈ pre ++ mid, q e = false := by
    intro mid q h1 h2 e he
    rcases List.mem_append.mp he with he | he
    · exact h1 e he
    · exact h2 e he
  cases h1 : env.listen with
  | some err =>
    rw [startFromListen_listen_failed p resourceName env pre err h1]
    refine Or.inl ⟨pre ++ [Event.log "Starting Infiniband device plugin"],
      Event.listen "unix" serverSock (some err), err, by simp, rfl, ?_, ?_, rfl, rfl⟩
    · exact hmem _ _ hR (by simp [Event.isRegister])
    · exact hmem _ _ hF (by simp [Event.failed])
  | none =>
    cases h2 : env.dialSelf with
    | some err =>
      rw [startFromListen_dialSelf_failed p resourceName env pre err h1 h2]
      refine Or.inl ⟨pre ++ [Event.log "Starting Infiniband device plugin",
        Event.listen "unix" serverSock none, Event.newServer, Event.registerService,
        Event.serve], Event.dial serverSock 5 (some err), err, by simp, rfl, ?_, ?_,
        rfl, rfl⟩
      · exact hmem _ _ hR (by simp [Event.isRegister])
      · exact hmem _ _ hF (by simp [Event.failed])
    | none =>
      cases h3 : env.dialKubelet with
      | some err =>
        rw [startFromListen_dialKubelet_failed p resourceName env pre err h1 h2 h3]
        refine Or.inl ⟨pre ++ [Event.log "Starting Infiniband device plugin",
          Event.listen "unix" serverSock none, Event.newServer, Event.registerService,
          Event.serve, Event.dial serverSock 5 none, Event.connClose serverSock,
          Event.log "Infiniband device plugin started",
          Event.log "Registering Infinitband device plugin with Kubelet"],
          Event.dial KubeletSocket 5 (some err), err, by simp, rfl, ?_, ?_, rfl, rfl⟩
        · exact hmem _ _ hR (by simp [Event.isRegister])
        · exact hmem _ _ hF (by simp [Event.failed])
      | none =>
        rw [startFromListen_registered p resourceName env pre h1 h2 h3]
        refine Or.inr ⟨_, rfl, rfl, ?_, ?_, readySteps_sublist pre none⟩
        · exact hmem _ _ hR (by simp [Event.isRegister])
        · exact hmem _ _ hF (by simp [Event.failed])

theorem Start_shape (p : IbDevicePlugin) (resourceName : String) (env : StartEnv) :
    startShape resourceName env (Start p resourceName env) := by
  cases hs : env.statSock with
  | ok info =>
    cases hr : env.removeSock with
    | some err =>
      have : Start p resourceName env
          = { trace := [Event.stat serverSock (.ok info), Event.remove serverSock (some err)],
              plugin := p,
              err := some ("failed to remove pre-existing socket file: " ++ err) } := by
        simp only [Start, hs, hr]
      rw [this]
      exact Or.inl ⟨[Event.stat serverSock (.ok info)], Event.remove serverSock (some err),
        _, rfl, rfl, by simp [Event.isRegister], by simp [Event.failed], rfl, rfl⟩
    | none =>
      have : Start p resourceName env = startFromListen p resourceName env
          [Event.stat serverSock (.ok info), Event.remove serverSock none] := by
        simp only [Start, hs, hr]
      rw [this]
      exact startFromListen_shape p resourceName env _
        (by simp [Event.isRegister]) (by simp [Event.failed])
  | error err =>
    by_cases hn : IsNotExist err = true
    · have : Start p resourceName env = startFromListen p resourceName env
          [Event.stat serverSock (.error err)] := by
        simp [Start, hs, hn]
      rw [this]
      exact startFromListen_shape p resourceName env _
        (by simp [Event.isRegister]) (by simp [Event.failed, hn])
    · have : Start p resourceName env
          = { trace := [Event.stat serverSock (.error err)],
              plugin := p,
              err := some ("failed to stat socket file: " ++ err.msg) } := by
        simp [Start, hs, hn]
      rw [this]
      exact Or.inl ⟨[], Event.stat serverSock (.error err), _, rfl, rfl, by simp, by simp,
        rfl, by simp [Event.failed, hn]⟩

/-- The facts of `registered_facts` for the end of a run of `Start` that
reached the registration call. -/
theorem registeredRun_facts (front : List Event) (resourceName : String)
    (regErr : Option GoError)
    (hR : ∀ e ∈ front, e.isRegister = false) (hF : ∀ e ∈ front, e.failed = false) :
    (front ++ Event.register { Version := Version, Endpoint := "ib-device-plugin.sock",
                               ResourceName := resourceName } regErr ::
        [Event.log "Infiniband device plugin registered",
         Event.connClose KubeletSocket]).filter Event.isRegister
      = [Event.register { Version := Version, Endpoint := "ib-device-plugin.sock",
                          ResourceName := resourceName } regErr] ∧
    beforeRegister (front ++
        Event.register { Version := Version, Endpoint := "ib-device-plugin.sock",
                         ResourceName := resourceName } regErr ::
        [Event.log "Infiniband device plugin registered",
         Event.connClose KubeletSocket]) = front ∧
    ((∃ e ∈ front ++
        Event.register { Version := Version, Endpoint := "ib-device-plugin.sock",
                         ResourceName := resourceName } regErr ::
        [Event.log "Infiniband device plugin registered",
         Event.connClose KubeletSocket], e.failed = true) ↔ regErr ≠ none) ∧
    (∀ e ∈ afterFailure (front ++
        Event.register { Version := Version, Endpoint := "ib-device-plugin.sock",
                         ResourceName := resourceName } regErr ::
        [Event.log "Infiniband device plugin registered",
         Event.connClose KubeletSocket]), e.isStep = false) := by
  obtain ⟨h1, h2, h3, h4⟩ := registered_facts front
    [Event.log "Infiniband device plugin registered", Event.connClose KubeletSocket]
    (Event.register { Version := Version, Endpoint := "ib-device-plugin.sock",
                      ResourceName := resourceName } regErr)
    hR hF (by simp [Event.isRegister]) (by simp [Event.failed]) rfl
  refine ⟨h1, h2, ?_, ?_⟩
  · rw [h3]
    cases regErr <;> simp [Event.failed]
  · intro e he
    have hb := h4 e he
    simp only [List.mem_cons, List.mem_singleton, List.not_mem_nil, or_false] at hb
    rcases hb with rfl | rfl <;> rfl

theorem startFromListen_pre (p : IbDevicePlugin) (resourceName : String)
    (env : StartEnv) (pre : List Event) :
    (startFromListen p resourceName env pre).trace
        = pre ++ (startFromListen p resourceName env []).trace ∧
      (startFromListen p resourceName env pre).err
        = (startFromListen p resourceName env []).err ∧
      (startFromListen p resourceName env pre).plugin
        = (startFromListen p resourceName env []).plugin := by
  cases h1 : env.listen with
  | some err =>
    rw [startFromListen_listen_failed p resourceName env pre err h1,
      startFromListen_listen_failed p resourceName env [] err h1]
    simp
  | none =>
    cases h2 : env.dialSelf with
    | some err =>
      rw [startFromListen_dialSelf_failed p resourceName env pre err h1 h2,
        startFromListen_dialSelf_failed p resourceName env [] err h1 h2]
      simp
    | none =>
      cases h3 : env.dialKubelet with
      | some err =>
        rw [startFromListen_dialKubelet_failed p resourceName env pre err h1 h2 h3,
          startFromListen_dialKubelet_failed p resourceName env [] err h1 h2 h3]
        simp
      | none =>
        rw [startFromListen_registered p resourceName env pre h1 h2 h3,
          startFromListen_registered p resourceName env [] h1 h2 h3]
        simp

/-- C7: in every run of `Start` the trace holds at most one registration
call; when it holds one, the events before it include, in this order, the
successful bind of the listener, the launch of the server and the
successful dial to the plugin's own socket; and when `Start` returns nil,
the trace holds exactly one registration call, it succeeded, and its
request carries `v1beta1.Version`, the endpoint `ib-device-plugin.sock`,
which is the base name of the socket path and not the path, and the
resource name given to `Start`. -/
theorem Start_registration (p : IbDevicePlugin) (resourceName : String) (env : StartEnv) :
    ((Start p resourceName env).trace.filter Event.isRegister).length ≤ 1 ∧
    ((∃ e ∈ (Start p resourceName env).trace, e.isRegister = true) →
      List.Sublist readySteps (beforeRegister (Start p resourceName env).trace)) ∧
    ((Start p resourceName env).err = none →
      (Start p resourceName env).trace.filter Event.isRegister
        = [Event.register
            { Version := Version, Endpoint := "ib-device-plugin.sock",
              ResourceName := resourceName } none]) ∧
    Base serverSock = "ib-device-plugin.sock" ∧
    Base serverSock ≠ serverSock := by
  refine ⟨?_, ?_, ?_, Base_serverSock, by decide⟩
  · rcases Start_shape p resourceName env with
      ⟨front, last, err, ht, -, hR, hF, hlR, hlF⟩ | ⟨front, ht, -, hR, hF, -⟩
    · rw [ht, (failedLast_facts front last hR hF hlR hlF).1]
      simp
    · rw [ht, (registeredRun_facts front resourceName env.register hR hF).1]
      simp
  · intro hex
    rcases Start_shape p resourceName env with
      ⟨front, last, err, ht, -, hR, hF, hlR, hlF⟩ | ⟨front, ht, -, hR, hF, hsub⟩
    · rw [ht] at hex
      exact absurd hex (failedLast_facts front last hR hF hlR hlF).2.1
    · rw [ht, (registeredRun_facts front resourceName env.register hR hF).2.1]
      exact hsub
  · intro hnil
    rcases Start_shape p resourceName env with
      ⟨front, last, err, -, he, -⟩ | ⟨front, ht, he, hR, hF, -⟩
    · rw [he] at hnil
      exact absurd hnil (by simp)
    · rw [ht, (registeredRun_facts front resourceName env.register hR hF).1]
      rw [he] at hnil
      rw [hnil]

/-- C7, at a run in which every call succeeds. -/
theorem Start_registration_witness :
    (Start { devs := [], devices := [], server := none } "ib.plugin/infiniband"
        { statSock := .error { msg := "no such file or directory", isNotExist := true },
          removeSock := none, listen := none, dialSelf := none, dialKubelet := none,
          register := none }).trace.filter Event.isRegister
      = [Event.register
          { Version := "v1beta1", Endpoint := "ib-device-plugin.sock",
            ResourceName := "ib.plugin/infiniband" } none] :=
  (Start_registration { devs := [], devices := [], server := none } "ib.plugin/infiniband"
    { statSock := .error { msg := "no such file or directory", isNotExist := true },
      removeSock := none, listen := none, dialSelf := none, dialKubelet := none,
      register := none }).2.2.1 (by decide)

theorem Start_of_guardPasses (p : IbDevicePlugin) (resourceName : String)
    (env : StartEnv) (hg : guardPasses env = true) :
    Start p resourceName env = startFromListen p resourceName env (guardEvents env) := by
  unfold guardPasses at hg
  unfold guardEvents
  cases hs : env.statSock with
  | ok info =>
    rw [hs] at hg
    have hr : env.removeSock = none := by simpa using hg
    simp only [Start, hs, hr]
  | error err =>
    rw [hs] at hg
    simp only at hg
    simp [Start, hs, hg]

/-- C8: `Start` returns an error exactly when its trace holds a failed
startup step (a stat error other than not-exist, or an error from the
removal, the bind, either dial or the registration call); no startup step
follows a failed one; when every call made succeeds, with the stat
answering not-exist or finding a file that is then removed, `Start` returns
nil; a run that finds a socket file and removes it has, after the stat
and the removal, the same events, the same result and the same plugin as a
run whose stat answers not-exist. Step by step: a stat error other than
not-exist, and a failed removal, are returned wrapped, with no call after
them; once the guard is passed, a failed bind, a failed self-dial and a
failed dial to the kubelet are each returned as they are, as the last call
of the run; and when all three succeed the registration call is made and
`Start` returns what it returned. -/
theorem Start_error_iff (p : IbDevicePlugin) (resourceName : String) (env : StartEnv) :
    ((Start p resourceName env).err ≠ none ↔
      ∃ e ∈ (Start p resourceName env).trace, e.failed = true) ∧
    (∀ e ∈ afterFailure (Start p resourceName env).trace, e.isStep = false) ∧
    (((∃ err, env.statSock = .error err ∧ IsNotExist err = true) ∨
        ((∃ info, env.statSock = .ok info) ∧ env.removeSock = none)) →
      env.listen = none → env.dialSelf = none → env.dialKubelet = none →
      env.register = none → (Start p resourceName env).err = none) ∧
    (∀ info err, env.statSock = .ok info → env.removeSock = none → IsNotExist err = true →
      (Start p resourceName env).trace.drop 2
          = (Start p resourceName { env with statSock := .error err }).trace.drop 1 ∧
        (Start p resourceName env).err
          = (Start p resourceName { env with statSock := .error err }).err ∧
        (Start p resourceName env).plugin
          = (Start p resourceName { env with statSock := .error err }).plugin) ∧
    (∀ err, env.statSock = .error err → IsNotExist err = false →
      (Start p resourceName env).err = some ("failed to stat socket file: " ++ err.msg) ∧
      (Start p resourceName env).trace = [Event.stat serverSock (.error err)]) ∧
    (∀ info e, env.statSock = .ok info → env.removeSock = some e →
      (Start p resourceName env).err
        = some ("failed to remove pre-existing socket file: " ++ e) ∧
      (Start p resourceName env).trace
        = [Event.stat serverSock (.ok info), Event.remove serverSock (some e)]) ∧
    (guardPasses env = true → ∀ e, env.listen = some e →
      (Start p resourceName env).err = some e ∧
      (Start p resourceName env).trace = guardEvents env ++
        [Event.log "Starting Infiniband device plugin",
         Event.listen "unix" serverSock (some e)]) ∧
    (guardPasses env = true → env.listen = none → ∀ e, env.dialSelf = some e →
      (Start p resourceName env).err = some e ∧
      (Start p resourceName env).trace = guardEvents env ++
        [Event.log "Starting Infiniband device plugin",
         Event.listen "unix" serverSock none, Event.newServer, Event.registerService,
         Event.serve, Event.dial serverSock 5 (some e)]) ∧
    (guardPasses env = true → env.listen = none → env.dialSelf = none →
      ∀ e, env.dialKubelet = some e →
      (Start p resourceName env).err = some e ∧
      (Start p resourceName env).trace = guardEvents env ++
        [Event.log "Starting Infiniband device plugin",
         Event.listen "unix" serverSock none, Event.newServer, Event.registerService,
         Event.serve, Event.dial serverSock 5 none, Event.connClose serverSock,
         Event.log "Infiniband device plugin started",
         Event.log "Registering Infinitband device plugin with Kubelet",
         Event.dial KubeletSocket 5 (some e)]) ∧
    (guardPasses env = true → env.listen = none → env.dialSelf = none →
      env.dialKubelet = none →
      (Start p resourceName env).err = env.register ∧
      (Start p resourceName env).trace = guardEvents env ++
        [Event.log "Starting Infiniband device plugin",
         Event.listen "unix" serverSock none, Event.newServer, Event.registerService,
         Event.serve, Event.dial serverSock 5 none, Event.connClose serverSock,
         Event.log "Infiniband device plugin started",
         Event.log "Registering Infinitband device plugin with Kubelet",
         Event.dial KubeletSocket 5 none,
         Event.register
           { Version := Version, Endpoint := "ib-device-plugin.sock",
             ResourceName := resourceName } env.register,
         Event.log "Infiniband device plugin registered",
         Event.connClose KubeletSocket]) := by
  refine ⟨?_, ?_, ?_, ?_, ?_, ?_, ?_, ?_, ?_, ?_⟩
  · rcases Start_shape p resourceName env with
      ⟨front, last, err, ht, he, hR, hF, hlR, hlF⟩ | ⟨front, ht, he, hR, hF, -⟩
    · rw [ht, he]
      exact ⟨fun _ => (failedLast_facts front last hR hF hlR hlF).2.2.1, fun _ => by simp⟩
    · rw [ht, he, (registeredRun_facts front resourceName env.register hR hF).2.2.1]
  · intro e hmem
    rcases Start_shape p resourceName env with
      ⟨front, last, err, ht, he, hR, hF, hlR, hlF⟩ | ⟨front, ht, he, hR, hF, -⟩
    · rw [ht, (failedLast_facts front last hR hF hlR hlF).2.2.2] at hmem
      simp at hmem
    · rw [ht] at hmem
      exact (registeredRun_facts front resourceName env.register hR hF).2.2.2 e hmem
  · intro hguard h1 h2 h3 h4
    rcases hguard with ⟨err, hs, hn⟩ | ⟨⟨info, hs⟩, hr⟩
    · have : Start p resourceName env = startFromListen p resourceName env
          [Event.stat serverSock (.error err)] := by
        simp [Start, hs, hn]
      rw [this, startFromListen_registered p resourceName env _ h1 h2 h3]
      exact h4
    · have : Start p resourceName env = startFromListen p resourceName env
          [Event.stat serverSock (.ok info), Event.remove serverSock none] := by
        simp only [Start, hs, hr]
      rw [this, startFromListen_registered p resourceName env _ h1 h2 h3]
      exact h4
  · intro info err hs hr hn
    have h1 : Start p resourceName env = startFromListen p resourceName env
        [Event.stat serverSock (.ok info), Event.remove serverSock none] := by
      simp only [Start, hs, hr]
    have h2 : Start p resourceName { env with statSock := .error err }
        = startFromListen p resourceName env [Event.stat serverSock (.error err)] := by
      simp [Start, hn]
      rfl
    rw [h1, h2]
    obtain ⟨ha, hb, hc⟩ := startFromListen_pre p resourceName env
      [Event.stat serverSock (.ok info), Event.remove serverSock none]
    obtain ⟨ha', hb', hc'⟩ := startFromListen_pre p resourceName env
      [Event.stat serverSock (.error err)]
    rw [ha, ha', hb, hb', hc, hc']
    simp
  · intro err hs hn
    simp [Start, hs, hn]
  · intro info e hs hr
    simp only [Start, hs, hr, and_self]
  · intro hg e h1
    rw [Start_of_guardPasses p resourceName env hg,
      startFromListen_listen_failed p resourceName env _ e h1]
    exact ⟨rfl, rfl⟩
  · intro hg h1 e h2
    rw [Start_of_guardPasses p resourceName env hg,
      startFromListen_dialSelf_failed p resourceName env _ e h1 h2]
    exact ⟨rfl, rfl⟩
  · intro hg h1 h2 e h3
    rw [Start_of_guardPasses p resourceName env hg,
      startFromListen_dialKubelet_failed p resourceName env _ e h1 h2 h3]
    exact ⟨rfl, rfl⟩
  · intro hg h1 h2 h3
    rw [Start_of_guardPasses p resourceName env hg,
      startFromListen_registered p resourceName env _ h1 h2 h3]
    exact ⟨rfl, by simp⟩

/-- C8, at a run that finds a stale socket file, removes it, and whose
registration call is then rejected; and at a run whose bind fails. -/
theorem Start_error_iff_witness :
    (Start { devs := [], devices := [], server := none } "ib.plugin/infiniband"
        { statSock := .ok { isDir := false },
          removeSock := none, listen := none, dialSelf := none, dialKubelet := none,
          register := some "rejected" }).err
      = (Start { devs := [], devices := [], server := none } "ib.plugin/infiniband"
        { statSock := .error { msg := "no such file or directory", isNotExist := true },
          removeSock := none, listen := none, dialSelf := none, dialKubelet := none,
          register := some "rejected" }).err ∧
    (Start { devs := [], devices := [], server := none } "ib.plugin/infiniband"
        { statSock := .ok { isDir := false },
          removeSock := none, listen := none, dialSelf := none, dialKubelet := none,
          register := some "rejected" }).err ≠ none ∧
    (Start { devs := [], devices := [], server := none } "ib.plugin/infiniband"
        { statSock := .error { msg := "no such file or directory", isNotExist := true },
          removeSock := none, listen := some "address already in use", dialSelf := none,
          dialKubelet := none, register := none }).err
      = some "address already in use" :=
  ⟨((Start_error_iff { devs := [], devices := [], server := none } "ib.plugin/infiniband"
      { statSock := .ok { isDir := false },
        removeSock := none, listen := none, dialSelf := none, dialKubelet := none,
        register := some "rejected" }).2.2.2.1
      { isDir := false } { msg := "no such file or directory", isNotExist := true }
      rfl rfl rfl).2.1,
   (Start_error_iff { devs := [], devices := [], server := none } "ib.plugin/infiniband"
      { statSock := .ok { isDir := false },
        removeSock := none, listen := none, dialSelf := none, dialKubelet := none,
        register := some "rejected" }).1.mpr
      ⟨Event.register
          { Version := Version, Endpoint := "ib-device-plugin.sock",
            ResourceName := "ib.plugin/infiniband" } (some "rejected"),
        by decide, rfl⟩,
   ((Start_error_iff { devs := [], devices := [], server := none } "ib.plugin/infiniband"
      { statSock := .error { msg := "no such file or directory", isNotExist := true },
        removeSock := none, listen := some "address already in use", dialSelf := none,
        dialKubelet := none, register := none }).2.2.2.2.2.2.1
      rfl "address already in use" rfl).1⟩
end K8sIb
